import Mathlib

/-!
# User CRUD service: request handlers over the `users` table

A shallow embedding of `src/controllers/userController.js` (the five request
handlers), `src/models/userModel.js` (the repository) and the `query` helper of
`src/config/database.js`, together with the parts of the JavaScript runtime the
handlers rely on (`String.prototype.trim`, `RegExp.prototype.test` for the
e-mail pattern, `isNaN`, `parseInt`).  The method `String.prototype.toLowerCase`
is fixed by the Unicode case tables of the runtime, which are not part of the
repository: the handlers take it as the parameter `toLowerCase`, and what is
proved about them holds for every such function.

The database server is not part of the repository.  Its state is the record
`Db`: the rows of the `users` table, the `AUTO_INCREMENT` counter, the server
clock read by `NOW()`, the list of statements executed so far, and a script of
driver failures.
-/

set_option autoImplicit false

namespace UserApi

/-! ## Runtime primitives on strings -/

/-- The characters matched by `\s` in a regular expression, removed by
`String.prototype.trim` and skipped by `parseInt` and `Number`: the ECMAScript
`WhiteSpace` and `LineTerminator` code points. -/
def isWhiteSpace (c : Char) : Bool :=
  let n := c.toNat
  n == 0x09 || n == 0x0A || n == 0x0B || n == 0x0C || n == 0x0D || n == 0x20 ||
  n == 0xA0 || n == 0x1680 || (0x2000 ≤ n && n ≤ 0x200A) ||
  n == 0x2028 || n == 0x2029 || n == 0x202F || n == 0x205F || n == 0x3000 || n == 0xFEFF

/-- Leading white space removed (`trimStart`). -/
def trimStart (cs : List Char) : List Char :=
  cs.dropWhile isWhiteSpace

/-- Trailing white space removed (`trimEnd`). -/
def trimEnd (cs : List Char) : List Char :=
  (trimStart cs.reverse).reverse

/-- The method `String.prototype.trim`: white space removed at both ends. -/
def trim (s : String) : String :=
  ⟨trimEnd (trimStart s.data)⟩

/-! ## The e-mail pattern -/

/-- One element of an anchored pattern: a literal character, or a non-empty run
`[...]+` of characters of a class. -/
inductive RegexItem where
  | lit (c : Char)
  | plus (cls : Char → Bool)

/-- Backtracking matcher for a sequence of pattern elements that has to consume
the whole input (the pattern is anchored by `^` and `$`). -/
def regexMatch : List RegexItem → List Char → Bool
  | [], [] => true
  | [], _ :: _ => false
  | _ :: _, [] => false
  | RegexItem.lit c :: rest, d :: cs => d == c && regexMatch rest cs
  | RegexItem.plus cls :: rest, d :: cs =>
      cls d && (regexMatch rest cs || regexMatch (RegexItem.plus cls :: rest) cs)

/-- The class `[^\s@]`. -/
def notSpaceAt (c : Char) : Bool :=
  !(isWhiteSpace c) && c != '@'

/-- The pattern `/^[^\s@]+@[^\s@]+\.[^\s@]+$/` of `createUser` and `updateUser`. -/
def emailRegex : List RegexItem :=
  [RegexItem.plus notSpaceAt, RegexItem.lit '@', RegexItem.plus notSpaceAt,
   RegexItem.lit '.', RegexItem.plus notSpaceAt]

/-- The call `emailRegex.test(email)` on a string. -/
def emailRegexTest (email : String) : Bool :=
  regexMatch emailRegex email.data

/-! ## Path identifiers: `isNaN` and `parseInt` -/

/-- A decimal digit, `0` to `9`. -/
def isDecimalDigit (c : Char) : Bool :=
  48 ≤ c.toNat && c.toNat ≤ 57

/-- The input without its first character when that is a sign `+` or `-`. -/
def dropSign (cs : List Char) : List Char :=
  if cs.head? = some '-' ∨ cs.head? = some '+' then cs.tail else cs

/-- An exponent `SignedInteger`: decimal digits, at least one, after an optional sign. -/
def isSignedInteger (cs : List Char) : Bool :=
  !(dropSign cs).isEmpty && (dropSign cs).all isDecimalDigit

/-- The rest of a decimal literal after its digits: nothing, or an `ExponentPart`. -/
def isExponentOpt (cs : List Char) : Bool :=
  match cs with
  | [] => true
  | c :: r => (c == 'e' || c == 'E') && isSignedInteger r

/-- The production `StrUnsignedDecimalLiteral` of the `StringToNumber` grammar:
`Infinity`, digits with an optional fraction and exponent, or a fraction that
starts with the dot. -/
def isUnsignedDecimal (cs : List Char) : Bool :=
  if cs = "Infinity".data then true
  else
    let intPart := cs.takeWhile isDecimalDigit
    match cs.dropWhile isDecimalDigit with
    | '.' :: r =>
        (!intPart.isEmpty || !(r.takeWhile isDecimalDigit).isEmpty) &&
          isExponentOpt (r.dropWhile isDecimalDigit)
    | rest => !intPart.isEmpty && isExponentOpt rest

/-- A hexadecimal digit. -/
def isHexDigit (c : Char) : Bool :=
  isDecimalDigit c || (97 ≤ c.toNat && c.toNat ≤ 102) || (65 ≤ c.toNat && c.toNat ≤ 70)

/-- The production `NonDecimalIntegerLiteral`: `0x`, `0o` or `0b` (either case)
followed by at least one digit of that base; it takes no sign. -/
def isNonDecimal (cs : List Char) : Bool :=
  match cs with
  | '0' :: x :: ds =>
      if x == 'x' || x == 'X' then !ds.isEmpty && ds.all isHexDigit
      else if x == 'o' || x == 'O' then
        !ds.isEmpty && ds.all (fun c => 48 ≤ c.toNat && c.toNat ≤ 55)
      else if x == 'b' || x == 'B' then
        !ds.isEmpty && ds.all (fun c => c == '0' || c == '1')
      else false
  | _ => false

/-- The production `StrNumericLiteral`. -/
def isStrNumericLiteral (cs : List Char) : Bool :=
  isNonDecimal cs || isUnsignedDecimal (dropSign cs)

/-- The call `isNaN(id)` on a string: `Number(id)` is `NaN` exactly when the
string, white space removed at both ends, is neither empty (which converts to
`0`) nor a `StrNumericLiteral`. -/
def isNaN (id : String) : Bool :=
  let t := trimEnd (trimStart id.data)
  !(t.isEmpty || isStrNumericLiteral t)

/-- The value of a character as a digit of the given radix, if it is one. -/
def digitValue (radix : Nat) (c : Char) : Option Nat :=
  let n := c.toNat
  let v : Option Nat :=
    if 48 ≤ n ∧ n ≤ 57 then some (n - 48)
    else if 97 ≤ n ∧ n ≤ 122 then some (n - 87)
    else if 65 ≤ n ∧ n ≤ 90 then some (n - 55)
    else none
  v.filter (fun d => d < radix)

/-- The Number value of a non-negative mathematical integer: itself below
`2^53`, otherwise rounded to 53 significant bits with ties to even; `none` when
the result overflows to `Infinity`. -/
def toDouble (n : Nat) : Option Nat :=
  if n < 2 ^ 53 then some n
  else
    let e := Nat.log2 n - 52
    let q := n / 2 ^ e
    let r := n % 2 ^ e
    let half := 2 ^ (e - 1)
    let q1 := if half < r ∨ (r = half ∧ q % 2 = 1) then q + 1 else q
    if q1 * 2 ^ e < 2 ^ 1024 then some (q1 * 2 ^ e) else none

/-- Whether the input starts with `0x` or `0X`. -/
def hasHexMark (cs : List Char) : Bool :=
  cs.take 2 == ['0', 'x'] || cs.take 2 == ['0', 'X']

/-- The call `parseInt(id)` on a string, no radix given: leading white space is
skipped, a sign is read, the radix is 16 after `0x` or `0X` and 10 otherwise,
and the longest run of digits of that radix is converted.  The result is `none`
when the runtime returns a value that is not finite (`NaN` when there is no
digit, or an infinity for a digit string beyond the range of a Number);
`JSON.stringify` writes both as `null`. -/
def parseInt (id : String) : Option Int :=
  let s := trimStart id.data
  let neg : Bool := s.head? = some '-'
  let s1 := dropSign s
  let radix := if hasHexMark s1 then 16 else 10
  let s2 := if hasHexMark s1 then s1.drop 2 else s1
  let z := s2.takeWhile (fun c => (digitValue radix c).isSome)
  if z.isEmpty then none
  else
    let mathInt := z.foldl (fun acc c => acc * radix + (digitValue radix c).getD 0) 0
    (toDouble mathInt).map (fun (v : Nat) => if neg then -(v : Int) else (v : Int))

/-- Decimal digits of a number, most significant first, in front of `acc`; the
first argument bounds the number of digits. -/
def decimalAux : Nat → Nat → List Char → List Char
  | 0, _, acc => acc
  | fuel + 1, n, acc =>
      if n < 10 then Nat.digitChar n :: acc
      else decimalAux fuel (n / 10) (Nat.digitChar (n % 10) :: acc)

/-- The decimal digits of a natural number, most significant first. -/
def decimal (n : Nat) : List Char :=
  decimalAux (n + 1) n []

/-- The path segment a client builds from an id (the template literal of the
tests, which appends the id to `/api/users/`): its decimal digits, after `-`
when negative. -/
def pathOf (id : Int) : String :=
  ⟨if id < 0 then '-' :: decimal id.natAbs else decimal id.natAbs⟩

/-! ## Data model -/

/-- A row of the `users` table, as the driver returns it. -/
structure UserRow where
  id : Int
  name : String
  email : String
  created_at : Nat
  updated_at : Nat
deriving DecidableEq, Repr

/-- An error object, with the fields the handlers and the error middleware
read: `code`, `type`, `statusCode`, `status` and `message`. -/
structure JsError where
  code : Option String
  type : Option String
  statusCode : Option Nat
  status : Option Nat
  message : Option String
deriving DecidableEq, Repr

/-- The error the storage layer raises when a `UNIQUE` key would be duplicated. -/
def erDupEntry : JsError :=
  { code := some "ER_DUP_ENTRY", type := none, statusCode := none, status := none,
    message := some "Duplicate entry" }

/-- The seven parameterised statements of `userModel.js`, with their
parameters.  An id parameter is `none` when the handler passes a value that is
not a finite number. -/
inductive Sql where
  | insertUser (name email : String)
  | selectAll
  | selectById (id : Option Int)
  | selectByEmail (email : String)
  | updateUser (name email : String) (id : Option Int)
  | deleteById (id : Option Int)
  | countUsers
deriving DecidableEq, Repr

/-- The part of `result.rows` the repository reads: the row array of a
`SELECT`, `insertId` and `affectedRows` of the header of a write, and the
`total` column of the `COUNT(*)` row. -/
structure QueryResult where
  rows : List UserRow
  insertId : Int
  affectedRows : Nat
  total : Nat
deriving DecidableEq, Repr

/-- The database server and the driver, as seen from the process: `rows` is
the `users` table in insertion order, `nextId` the `AUTO_INCREMENT` counter,
`now` the server clock read by `NOW()`, `log` the statements executed so far,
oldest first, and `faults` a script of driver failures: each statement
consumes the head of the script and fails with it when it is `some e`; an empty
script is a driver that never fails. -/
structure Db where
  rows : List UserRow
  nextId : Int
  now : Nat
  log : List Sql
  faults : List (Option JsError)
deriving DecidableEq, Repr

/-- Whether a row is selected by `WHERE id = ?` with the given parameter; a
parameter that is not a finite number selects nothing. -/
def matchesId (id : Option Int) (r : UserRow) : Bool :=
  id == some r.id

/-- The rows in the order of `ORDER BY created_at DESC`; rows with equal
`created_at` keep their insertion order. -/
def orderByCreatedAtDesc (rows : List UserRow) : List UserRow :=
  rows.insertionSort (fun a b => b.created_at ≤ a.created_at)

/-- The row written by `INSERT INTO users (name, email, created_at, updated_at)
VALUES (?, ?, NOW(), NOW())`: the id is taken from the counter. -/
def Db.newRow (db : Db) (name email : String) : UserRow :=
  { id := db.nextId, name := name, email := email, created_at := db.now, updated_at := db.now }

/-- A row after `SET name = ?, email = ?, updated_at = NOW()`. -/
def Db.updatedRow (db : Db) (name email : String) (r : UserRow) : UserRow :=
  { r with name := name, email := email, updated_at := db.now }

/-- Modelled from the spec: the `users` table, whose schema is created by a
migration file that is not in `src/`.  The spec gives it as
`users(id PK autoincrement, name, email UNIQUE, created_at, updated_at)`, with
e-mails compared case-sensitively at the storage level.  This is what the
server does with one statement: an `INSERT` takes its id from the counter and
is refused with a duplicate-entry error when the e-mail is already stored; an
`UPDATE` is refused likewise when another row holds the e-mail; a `WHERE id = ?`
selects the rows with that id; `affectedRows` counts the rows matched. -/
def Db.execute (db : Db) (sql : Sql) : Except JsError QueryResult × Db :=
  match sql with
  | Sql.insertUser name email =>
      if db.rows.any (fun r => r.email == email) then (Except.error erDupEntry, db)
      else
        (Except.ok { rows := [], insertId := db.nextId, affectedRows := 1, total := 0 },
         { db with
           rows := db.rows ++ [db.newRow name email],
           nextId := db.nextId + 1 })
  | Sql.selectAll =>
      (Except.ok { rows := orderByCreatedAtDesc db.rows, insertId := 0, affectedRows := 0,
                   total := 0 }, db)
  | Sql.selectById id =>
      (Except.ok { rows := db.rows.filter (matchesId id), insertId := 0, affectedRows := 0,
                   total := 0 }, db)
  | Sql.selectByEmail email =>
      (Except.ok { rows := db.rows.filter (fun r => r.email == email), insertId := 0,
                   affectedRows := 0, total := 0 }, db)
  | Sql.updateUser name email id =>
      if (db.rows.filter (matchesId id)).isEmpty then
        (Except.ok { rows := [], insertId := 0, affectedRows := 0, total := 0 }, db)
      else if db.rows.any (fun r => !(matchesId id r) && r.email == email) then
        (Except.error erDupEntry, db)
      else
        (Except.ok { rows := [], insertId := 0,
                     affectedRows := (db.rows.filter (matchesId id)).length, total := 0 },
         { db with
           rows := db.rows.map (fun r =>
             if matchesId id r then db.updatedRow name email r else r) })
  | Sql.deleteById id =>
      (Except.ok { rows := [], insertId := 0,
                   affectedRows := (db.rows.filter (matchesId id)).length, total := 0 },
       { db with rows := db.rows.filter (fun r => !(matchesId id r)) })
  | Sql.countUsers =>
      (Except.ok { rows := [], insertId := 0, affectedRows := 0, total := db.rows.length }, db)

/-- The helper `query(sql, params)` of `database.js`: the statement is handed
to the pool; a driver failure is rethrown, otherwise the result is returned. -/
def query (sql : Sql) (db : Db) : Except JsError QueryResult × Db :=
  match db.faults with
  | some e :: rest => (Except.error e, { db with log := db.log ++ [sql], faults := rest })
  | none :: rest => Db.execute { db with log := db.log ++ [sql], faults := rest } sql
  | [] => Db.execute { db with log := db.log ++ [sql] } sql

/-- Time passing on the server between two requests. -/
def Db.tick (db : Db) (dt : Nat) : Db :=
  { db with now := db.now + dt }

/-- The database after one more statement has been logged and nothing else
has changed. -/
def Db.logged (db : Db) (sql : Sql) : Db :=
  { db with log := db.log ++ [sql] }

/-! ## The repository (`userModel.js`) -/

namespace User

/-- The method `User.findById`: `SELECT * FROM users WHERE id = ?`, then
`result.rows[0] || null`. -/
def findById (id : Option Int) (db : Db) : Except JsError (Option UserRow) × Db :=
  match query (Sql.selectById id) db with
  | (Except.error e, db1) => (Except.error e, db1)
  | (Except.ok result, db1) => (Except.ok result.rows.head?, db1)

/-- The method `User.findByEmail`: `SELECT * FROM users WHERE email = ?`, then
`result.rows[0] || null`. -/
def findByEmail (email : String) (db : Db) : Except JsError (Option UserRow) × Db :=
  match query (Sql.selectByEmail email) db with
  | (Except.error e, db1) => (Except.error e, db1)
  | (Except.ok result, db1) => (Except.ok result.rows.head?, db1)

/-- The method `User.create`: the `INSERT`, then the row is read back by
`result.rows.insertId`. -/
def create (name email : String) (db : Db) : Except JsError (Option UserRow) × Db :=
  match query (Sql.insertUser name email) db with
  | (Except.error e, db1) => (Except.error e, db1)
  | (Except.ok result, db1) => findById (some result.insertId) db1

/-- The method `User.findAll`: `SELECT * FROM users ORDER BY created_at DESC`. -/
def findAll (db : Db) : Except JsError (List UserRow) × Db :=
  match query Sql.selectAll db with
  | (Except.error e, db1) => (Except.error e, db1)
  | (Except.ok result, db1) => (Except.ok result.rows, db1)

/-- The method `User.update`: the `UPDATE`; `null` when no row was affected,
otherwise the row read back by id. -/
def update (id : Option Int) (name email : String) (db : Db) :
    Except JsError (Option UserRow) × Db :=
  match query (Sql.updateUser name email id) db with
  | (Except.error e, db1) => (Except.error e, db1)
  | (Except.ok result, db1) =>
      if result.affectedRows = 0 then (Except.ok none, db1)
      else findById id db1

/-- The method `User.delete`: the row is read first; `null` without a `DELETE`
when it is absent; otherwise the `DELETE`, and the row as read when a row was
affected. -/
def delete (id : Option Int) (db : Db) : Except JsError (Option UserRow) × Db :=
  match findById id db with
  | (Except.error e, db1) => (Except.error e, db1)
  | (Except.ok none, db1) => (Except.ok none, db1)
  | (Except.ok (some user), db1) =>
      match query (Sql.deleteById id) db1 with
      | (Except.error e, db2) => (Except.error e, db2)
      | (Except.ok result, db2) =>
          if result.affectedRows = 0 then (Except.ok none, db2)
          else (Except.ok (some user), db2)

/-- The method `User.count`: `SELECT COUNT(*) as total FROM users`, then
`parseInt(result.rows[0].total)`, which is the count itself. -/
def count (db : Db) : Except JsError Nat × Db :=
  match query Sql.countUsers db with
  | (Except.error e, db1) => (Except.error e, db1)
  | (Except.ok result, db1) => (Except.ok result.total, db1)

end User

/-! ## The request handlers (`userController.js`) -/

/-- A field of the request body: absent (`undefined`), `null`, or a string.
Body values of other JSON types are outside this model. -/
inductive Field where
  | missing
  | null
  | str (s : String)
deriving DecidableEq, Repr

/-- Truthiness of a body field (`!!name`): a string that is not empty. -/
def Field.truthy : Field → Bool
  | Field.str s => !s.data.isEmpty
  | _ => false

/-- The string held by a body field. -/
def Field.text : Field → String
  | Field.str s => s
  | _ => ""

/-- The JSON bodies the handlers write. -/
inductive Body where
  | required (error : String) (receivedName receivedEmail : Bool)
  | error (error : String)
  | notFound (error : String) (id : Option Int)
  | user (success : Bool) (data : Option UserRow) (message : Option String)
  | list (success : Bool) (data : List UserRow) (total count : Nat)
  | deleted (success : Bool) (message : String) (id : Option Int)
deriving DecidableEq, Repr

/-- The `error` field of a body, when it has one. -/
def Body.errorText : Body → Option String
  | Body.required e _ _ => some e
  | Body.error e => some e
  | Body.notFound e _ => some e
  | _ => none

/-- What a handler does with a request: it writes a response
(`res.status(..).json(..)`) or hands the caught error to `next`. -/
inductive Outcome where
  | respond (status : Nat) (body : Body)
  | forward (err : JsError)
deriving DecidableEq, Repr

namespace UserController

/-- The handler `UserController.createUser` on `req.body = { name, email }`.
The parameter `toLowerCase` is the method `String.prototype.toLowerCase` of the
runtime. -/
def createUser (toLowerCase : String → String) (name email : Field) (db : Db) : Outcome × Db :=
  if !name.truthy || !email.truthy then
    (Outcome.respond 400
      (Body.required "Name and email are required" name.truthy email.truthy), db)
  else if !emailRegexTest email.text then
    (Outcome.respond 400 (Body.error "Invalid email format"), db)
  else
    match User.findByEmail email.text db with
    | (Except.error e, db1) => (Outcome.forward e, db1)
    | (Except.ok (some _), db1) => (Outcome.respond 409 (Body.error "Email already exists"), db1)
    | (Except.ok none, db1) =>
        match User.create (trim name.text) (trim (toLowerCase email.text)) db1 with
        | (Except.error e, db2) => (Outcome.forward e, db2)
        | (Except.ok user, db2) =>
            (Outcome.respond 201 (Body.user true user (some "User created successfully")), db2)

/-- The handler `UserController.getUsers`. -/
def getUsers (db : Db) : Outcome × Db :=
  match User.findAll db with
  | (Except.error e, db1) => (Outcome.forward e, db1)
  | (Except.ok users, db1) =>
      match User.count db1 with
      | (Except.error e, db2) => (Outcome.forward e, db2)
      | (Except.ok total, db2) =>
          (Outcome.respond 200 (Body.list true users total users.length), db2)

/-- The handler `UserController.getUserById` on `req.params.id`. -/
def getUserById (id : String) (db : Db) : Outcome × Db :=
  if isNaN id then (Outcome.respond 400 (Body.error "Invalid user ID format"), db)
  else
    match User.findById (parseInt id) db with
    | (Except.error e, db1) => (Outcome.forward e, db1)
    | (Except.ok none, db1) =>
        (Outcome.respond 404 (Body.notFound "User not found" (parseInt id)), db1)
    | (Except.ok (some user), db1) =>
        (Outcome.respond 200 (Body.user true (some user) none), db1)

/-- The handler `UserController.updateUser` on `req.params.id` and
`req.body = { name, email }`.  The parameter `toLowerCase` is the method
`String.prototype.toLowerCase` of the runtime. -/
def updateUser (toLowerCase : String → String) (id : String) (name email : Field) (db : Db) :
    Outcome × Db :=
  if isNaN id then (Outcome.respond 400 (Body.error "Invalid user ID format"), db)
  else if !name.truthy || !email.truthy then
    (Outcome.respond 400
      (Body.required "Name and email are required" name.truthy email.truthy), db)
  else if !emailRegexTest email.text then
    (Outcome.respond 400 (Body.error "Invalid email format"), db)
  else
    match User.findById (parseInt id) db with
    | (Except.error e, db1) => (Outcome.forward e, db1)
    | (Except.ok none, db1) =>
        (Outcome.respond 404 (Body.notFound "User not found" (parseInt id)), db1)
    | (Except.ok (some _), db1) =>
        match User.findByEmail (trim (toLowerCase email.text)) db1 with
        | (Except.error e, db2) => (Outcome.forward e, db2)
        | (Except.ok userWithEmail, db2) =>
            if userWithEmail.any (fun u => some u.id != parseInt id) then
              (Outcome.respond 409 (Body.error "Email already exists"), db2)
            else
              match User.update (parseInt id) (trim name.text)
                  (trim (toLowerCase email.text)) db2 with
              | (Except.error e, db3) => (Outcome.forward e, db3)
              | (Except.ok user, db3) =>
                  (Outcome.respond 200
                    (Body.user true user (some "User updated successfully")), db3)

/-- The handler `UserController.deleteUser` on `req.params.id`. -/
def deleteUser (id : String) (db : Db) : Outcome × Db :=
  if isNaN id then (Outcome.respond 400 (Body.error "Invalid user ID format"), db)
  else
    match User.delete (parseInt id) db with
    | (Except.error e, db1) => (Outcome.forward e, db1)
    | (Except.ok none, db1) =>
        (Outcome.respond 404 (Body.notFound "User not found" (parseInt id)), db1)
    | (Except.ok (some _), db1) =>
        (Outcome.respond 200 (Body.deleted true "User deleted successfully" (parseInt id)), db1)

end UserController

/-! ## Sequences of requests (`userRoutes.js`) -/

/-- A request to one of the five routes of the router. -/
inductive Request where
  | post (name email : Field)
  | getAll
  | get (id : String)
  | put (id : String) (name email : Field)
  | delete (id : String)
deriving DecidableEq, Repr

/-- The router: each method and path is bound to its handler. -/
def handle (toLowerCase : String → String) (req : Request) (db : Db) : Outcome × Db :=
  match req with
  | Request.post name email => UserController.createUser toLowerCase name email db
  | Request.getAll => UserController.getUsers db
  | Request.get id => UserController.getUserById id db
  | Request.put id name email => UserController.updateUser toLowerCase id name email db
  | Request.delete id => UserController.deleteUser id db

/-- The database after a sequence of requests, each arriving after the given
number of seconds has passed on the server. -/
def run (toLowerCase : String → String) : List (Nat × Request) → Db → Db
  | [], db => db
  | (dt, req) :: rest, db => run toLowerCase rest (handle toLowerCase req (db.tick dt)).2

/-- The state in which id `i` has been given out and is held by no row: the
driver does not fail, every stored id is below the `AUTO_INCREMENT` counter,
and so is `i`, which no row carries. -/
def Db.Retired (db : Db) (i : Int) : Prop :=
  db.faults = [] ∧ (∀ r ∈ db.rows, r.id < db.nextId) ∧ i < db.nextId ∧ ∀ r ∈ db.rows, r.id ≠ i

instance (db : Db) (i : Int) : Decidable (db.Retired i) := by
  unfold Db.Retired
  exact inferInstance

/-! ## Sample data -/

/-- Lower-casing of one character of the ASCII range: the letters `A` to `Z`
are mapped to `a` to `z`; every other character is left as it is. -/
def asciiLowerChar (c : Char) : Char :=
  if 65 ≤ c.toNat ∧ c.toNat ≤ 90 then Char.ofNat (c.toNat + 32) else c

/-- A value of the parameter `toLowerCase` for the sample requests below, all
of which are made of ASCII characters: on such strings it is what
`String.prototype.toLowerCase` returns.  It is not the method of the runtime,
which also maps capitals outside the ASCII range. -/
def asciiLowerCase (s : String) : String :=
  ⟨s.data.map asciiLowerChar⟩

/-- Lower-casing of one character of the Latin-1 range: the letters `A` to `Z`
and the capitals `À` to `Þ`, the sign `×` apart, are mapped to their small
letters; every other character is left as it is. -/
def latin1LowerChar (c : Char) : Char :=
  if (65 ≤ c.toNat ∧ c.toNat ≤ 90) ∨ (192 ≤ c.toNat ∧ c.toNat ≤ 222 ∧ c.toNat ≠ 215) then
    Char.ofNat (c.toNat + 32)
  else c

/-- A value of the parameter `toLowerCase` for sample requests made of
characters of the Latin-1 range, on which it is what
`String.prototype.toLowerCase` returns. -/
def latin1LowerCase (s : String) : String :=
  ⟨s.data.map latin1LowerChar⟩

/-- A database with an empty `users` table. -/
def emptyDb : Db :=
  { rows := [], nextId := 1, now := 100, log := [], faults := [] }

/-- A stored user. -/
def annRow : UserRow :=
  { id := 1, name := "Ann", email := "ann@ex.com", created_at := 10, updated_at := 10 }

/-- Another stored user. -/
def bobRow : UserRow :=
  { id := 2, name := "Bob", email := "bob@ex.com", created_at := 20, updated_at := 20 }

/-- A stored user whose e-mail has an accented letter. -/
def emileRow : UserRow :=
  { id := 2, name := "Émile", email := "émile@ex.com", created_at := 20, updated_at := 20 }

/-- A database with two stored users, one of them with an accented e-mail. -/
def accentDb : Db :=
  { rows := [annRow, emileRow], nextId := 3, now := 30, log := [], faults := [] }

/-- A database with two stored users. -/
def sampleDb : Db :=
  { rows := [annRow, bobRow], nextId := 3, now := 30, log := [], faults := [] }

/-! ## The error middleware (`errorHandler.js`) -/

/-- The part of the request the error middleware reads. -/
structure Req where
  url : String
  method : String
deriving DecidableEq, Repr

/-- The JSON body the error middleware writes.  A field that is `none` is not
set, or set to `undefined`; `JSON.stringify` leaves it out of the text. -/
structure ErrorBody where
  error : String
  details : Option String
  timestamp : Option String
  path : Option String
deriving DecidableEq, Repr

/-- The response of the error middleware: `res.status(status).json(body)`. -/
structure ErrorResponse where
  status : Nat
  body : ErrorBody
deriving DecidableEq, Repr

/-- A line written with `console.error` (the `stack` of the error is not part
of the model). -/
inductive ConsoleLine where
  | captured (message : Option String) (url method timestamp : String)
  | unhandledCode (code : String)
deriving DecidableEq, Repr

/-- Truthiness of a value that is a string or `undefined`. -/
def truthyString (s : Option String) : Bool :=
  match s with
  | some v => !v.data.isEmpty
  | none => false

/-- Truthiness of a value that is a number or `undefined`. -/
def truthyNumber (n : Option Nat) : Bool :=
  match n with
  | some v => v != 0
  | none => false

/-- A response with the two fixed strings of a `case` of the middleware. -/
def fixedResponse (status : Nat) (error details : String) : ErrorResponse :=
  { status := status,
    body := { error := error, details := some details, timestamp := none, path := none } }

/-- The `switch (err.code)` of the middleware: the response of the six cases,
`none` for the `default` case. -/
def switchCode (code : String) : Option ErrorResponse :=
  if code = "ER_DUP_ENTRY" then
    some (fixedResponse 409 "Resource already exists" "Duplicate entry detected")
  else if code = "ER_BAD_NULL_ERROR" then
    some (fixedResponse 400 "Missing required field" "A required field is missing")
  else if code = "ER_NO_REFERENCED_ROW_2" then
    some (fixedResponse 400 "Invalid reference" "Referenced resource does not exist")
  else if code = "ER_BAD_FIELD_ERROR" then
    some (fixedResponse 400 "Invalid field" "Unknown column in field list")
  else if code = "ECONNREFUSED" then
    some (fixedResponse 503 "Database connection failed" "Unable to connect to the database")
  else if code = "ER_ACCESS_DENIED_ERROR" then
    some (fixedResponse 503 "Database access denied" "Invalid database credentials")
  else none

/-- The six storage codes the middleware has a `case` for. -/
def recognizedCodes : List String :=
  ["ER_DUP_ENTRY", "ER_BAD_NULL_ERROR", "ER_NO_REFERENCED_ROW_2", "ER_BAD_FIELD_ERROR",
   "ECONNREFUSED", "ER_ACCESS_DENIED_ERROR"]

/-- The part of the middleware after the `switch`: the two `err.type` checks and
the default response. -/
def afterSwitch (nodeEnv : Option String) (responseTime : String) (err : JsError) (req : Req) :
    ErrorResponse :=
  if err.type = some "entity.parse.failed" then
    fixedResponse 400 "Invalid JSON format" "Request body contains invalid JSON"
  else if err.type = some "entity.too.large" then
    fixedResponse 413 "Payload too large" "Request body exceeds size limit"
  else
    let statusCode :=
      if truthyNumber err.statusCode then err.statusCode.getD 0
      else if truthyNumber err.status then err.status.getD 0
      else 500
    let message := if truthyString err.message then err.message.getD "" else "Internal server error"
    { status := statusCode,
      body :=
        { error := if statusCode = 500 then "Internal server error" else message,
          details := if nodeEnv = some "development" then err.message else none,
          timestamp := some responseTime,
          path := some req.url } }

/-- The middleware `errorHandler(err, req, res, next)`: what it writes to the
console and the response it sends.  `nodeEnv` is `process.env.NODE_ENV`;
`logTime` and `responseTime` are the two readings of
`new Date().toISOString()`. -/
def errorHandler (nodeEnv : Option String) (logTime responseTime : String) (err : JsError)
    (req : Req) : List ConsoleLine × ErrorResponse :=
  let captured := ConsoleLine.captured err.message req.url req.method logTime
  if truthyString err.code then
    match switchCode (err.code.getD "") with
    | some response => ([captured], response)
    | none =>
        ([captured, ConsoleLine.unhandledCode (err.code.getD "")],
          afterSwitch nodeEnv responseTime err req)
  else ([captured], afterSwitch nodeEnv responseTime err req)

/-- A request to the users collection. -/
def sampleReq : Req :=
  { url := "/api/users", method := "POST" }

/-- An error that carries a status of its own and a message naming an
internal host. -/
def gatewayError : JsError :=
  { code := none, type := none, statusCode := none, status := some 503,
    message := some "connect ETIMEDOUT 10.0.0.5:3306" }

/-! ## The numeric value of a path id -/

/-- The value `Number(id)` stands for, before it is rounded to a Number: not a
number, an infinity, or the decimal `mantissa × 10 ^ exp10`. -/
inductive NumericValue where
  | nan
  | infinite (negative : Bool)
  | finite (mantissa : Int) (exp10 : Int)
deriving DecidableEq, Repr

/-- The value of a run of digits in the given radix. -/
def digitsValue (radix : Nat) (ds : List Char) : Nat :=
  ds.foldl (fun acc c => acc * radix + (digitValue radix c).getD 0) 0

/-- The value of a `SignedInteger`. -/
def signedIntegerValue (cs : List Char) : Int :=
  if cs.head? = some '-' then -(digitsValue 10 (dropSign cs) : Int)
  else (digitsValue 10 (dropSign cs) : Int)

/-- The mathematical value of a `StrDecimalLiteral`: the digits of the integer
part and of the fraction form the mantissa, and the exponent is the written
exponent less the number of fraction digits. -/
def decimalValue (cs : List Char) : NumericValue :=
  let u := dropSign cs
  if u = "Infinity".data then NumericValue.infinite (cs.head? = some '-')
  else
    let intPart := u.takeWhile isDecimalDigit
    let rest := u.dropWhile isDecimalDigit
    let frac := match rest with
      | '.' :: r => r.takeWhile isDecimalDigit
      | _ => []
    let rest2 := match rest with
      | '.' :: r => r.dropWhile isDecimalDigit
      | _ => rest
    let written : Int := match rest2 with
      | _ :: r => signedIntegerValue r
      | [] => 0
    let m : Int := (digitsValue 10 (intPart ++ frac) : Int)
    NumericValue.finite (if cs.head? = some '-' then -m else m) (written - (frac.length : Int))

/-- The mathematical value of a `NonDecimalIntegerLiteral`. -/
def nonDecimalValue (cs : List Char) : NumericValue :=
  let radix : Nat :=
    if cs.take 2 == ['0', 'x'] || cs.take 2 == ['0', 'X'] then 16
    else if cs.take 2 == ['0', 'o'] || cs.take 2 == ['0', 'O'] then 8
    else 2
  NumericValue.finite (digitsValue radix (cs.drop 2) : Int) 0

/-- The conversion `Number(id)` of a string, which `isNaN(id)` applies to its
argument: white space is removed at both ends; the empty string is `0`; a
`StrNumericLiteral` has its mathematical value; anything else is `NaN`. -/
def toNumber (id : String) : NumericValue :=
  let t := trimEnd (trimStart id.data)
  if t.isEmpty then NumericValue.finite 0 0
  else if !isStrNumericLiteral t then NumericValue.nan
  else if isNonDecimal t then nonDecimalValue t
  else decimalValue t

/-- Whether a numeric value is the integer `n`. -/
def NumericValue.isInt (v : NumericValue) (n : Int) : Bool :=
  match v with
  | NumericValue.finite m e =>
      if 0 ≤ e then m * 10 ^ e.toNat == n else m == n * 10 ^ (-e).toNat
  | _ => false

/-! ## The handlers as asynchronous functions: what they do to `res` and `next` -/

/-- An action of a handler on its arguments `res` and `next`:
`res.status(status).json(body)`, or `next(err)`. -/
inductive Effect where
  | json (status : Nat) (body : Body)
  | next (err : JsError)
deriving DecidableEq, Repr

/-- How a block of statements ends: it runs to its end, it executes `return`,
or it throws. -/
inductive Completion (α : Type) where
  | normal (value : α)
  | returned
  | thrown (err : JsError)
deriving DecidableEq, Repr

/-- The state a handler runs in: the state of the repository, and the actions
on `res` and `next` so far, oldest first. -/
structure World (σ : Type) where
  store : σ
  effects : List Effect

/-- A block of statements of a handler. -/
def Handler (σ α : Type) : Type :=
  World σ → Completion α × World σ

/-- A block that only yields a value. -/
def Handler.pure {σ α : Type} (a : α) : Handler σ α :=
  fun w => (Completion.normal a, w)

/-- Sequencing: the second block runs only when the first runs to its end. -/
def Handler.bind {σ α β : Type} (m : Handler σ α) (f : α → Handler σ β) : Handler σ β :=
  fun w =>
    match m w with
    | (Completion.normal a, w1) => f a w1
    | (Completion.returned, w1) => (Completion.returned, w1)
    | (Completion.thrown e, w1) => (Completion.thrown e, w1)

instance (σ : Type) : Monad (Handler σ) where
  pure := Handler.pure
  bind := Handler.bind

/-- The statement `res.status(status).json(body)`. -/
def Handler.json {σ : Type} (status : Nat) (body : Body) : Handler σ Unit :=
  fun w => (Completion.normal (), { w with effects := w.effects ++ [Effect.json status body] })

/-- The statement `return`. -/
def Handler.returnNow {σ : Type} : Handler σ Unit :=
  fun w => (Completion.returned, w)

/-- The expression `await op(..)` on a repository operation: its value when
the promise is fulfilled; a throw of the error when it is rejected. -/
def Handler.await {σ α : Type} (op : σ → Except JsError α × σ) : Handler σ α :=
  fun w =>
    match op w.store with
    | (Except.ok a, s1) => (Completion.normal a, { w with store := s1 })
    | (Except.error e, s1) => (Completion.thrown e, { w with store := s1 })

/-- The statement `try { block } catch (error) { next(error); }`. -/
def Handler.tryCatchNext {σ : Type} (block : Handler σ Unit) : Handler σ Unit :=
  fun w =>
    match block w with
    | (Completion.thrown e, w1) =>
        (Completion.normal (), { w1 with effects := w1.effects ++ [Effect.next e] })
    | (c, w1) => (c, w1)

/-- The module `User` as the handlers see it: seven asynchronous operations on
some state, each of which may be rejected with an error. -/
structure Repository (σ : Type) where
  create : String → String → σ → Except JsError (Option UserRow) × σ
  findAll : σ → Except JsError (List UserRow) × σ
  findById : Option Int → σ → Except JsError (Option UserRow) × σ
  findByEmail : String → σ → Except JsError (Option UserRow) × σ
  update : Option Int → String → String → σ → Except JsError (Option UserRow) × σ
  delete : Option Int → σ → Except JsError (Option UserRow) × σ
  count : σ → Except JsError Nat × σ

/-- The repository of `userModel.js` over the database. -/
def User.repository : Repository Db :=
  { create := User.create, findAll := User.findAll, findById := User.findById,
    findByEmail := User.findByEmail, update := User.update, delete := User.delete,
    count := User.count }

/-- The statement `return res.status(status).json(body)`. -/
def Handler.returnJson {σ : Type} (status : Nat) (body : Body) : Handler σ Unit := do
  Handler.json status body
  Handler.returnNow

/-- The statement `if (cond) { block }`. -/
def Handler.ifThen {σ : Type} (cond : Bool) (block : Handler σ Unit) : Handler σ Unit :=
  if cond then block else Handler.pure ()

namespace Async

/-- The `try` block of `createUser`. -/
def createUserTry {σ : Type} (toLowerCase : String → String) (repo : Repository σ)
    (name email : Field) : Handler σ Unit := do
  Handler.ifThen (!name.truthy || !email.truthy)
    (Handler.returnJson 400
      (Body.required "Name and email are required" name.truthy email.truthy))
  Handler.ifThen (!emailRegexTest email.text)
    (Handler.returnJson 400 (Body.error "Invalid email format"))
  let existingUser ← Handler.await (repo.findByEmail email.text)
  Handler.ifThen existingUser.isSome
    (Handler.returnJson 409 (Body.error "Email already exists"))
  let user ← Handler.await (repo.create (trim name.text) (trim (toLowerCase email.text)))
  Handler.json 201 (Body.user true user (some "User created successfully"))

/-- The `try` block of `getUsers`. -/
def getUsersTry {σ : Type} (repo : Repository σ) : Handler σ Unit := do
  let users ← Handler.await repo.findAll
  let total ← Handler.await repo.count
  Handler.json 200 (Body.list true users total users.length)

/-- The `try` block of `getUserById`. -/
def getUserByIdTry {σ : Type} (repo : Repository σ) (id : String) : Handler σ Unit := do
  Handler.ifThen (isNaN id)
    (Handler.returnJson 400 (Body.error "Invalid user ID format"))
  let user ← Handler.await (repo.findById (parseInt id))
  Handler.ifThen user.isNone
    (Handler.returnJson 404 (Body.notFound "User not found" (parseInt id)))
  Handler.json 200 (Body.user true user none)

/-- The `try` block of `updateUser`. -/
def updateUserTry {σ : Type} (toLowerCase : String → String) (repo : Repository σ)
    (id : String) (name email : Field) : Handler σ Unit := do
  Handler.ifThen (isNaN id)
    (Handler.returnJson 400 (Body.error "Invalid user ID format"))
  Handler.ifThen (!name.truthy || !email.truthy)
    (Handler.returnJson 400
      (Body.required "Name and email are required" name.truthy email.truthy))
  Handler.ifThen (!emailRegexTest email.text)
    (Handler.returnJson 400 (Body.error "Invalid email format"))
  let existingUser ← Handler.await (repo.findById (parseInt id))
  Handler.ifThen existingUser.isNone
    (Handler.returnJson 404 (Body.notFound "User not found" (parseInt id)))
  let userWithEmail ← Handler.await (repo.findByEmail (trim (toLowerCase email.text)))
  Handler.ifThen (userWithEmail.any (fun u => some u.id != parseInt id))
    (Handler.returnJson 409 (Body.error "Email already exists"))
  let user ← Handler.await
    (repo.update (parseInt id) (trim name.text) (trim (toLowerCase email.text)))
  Handler.json 200 (Body.user true user (some "User updated successfully"))

/-- The `try` block of `deleteUser`. -/
def deleteUserTry {σ : Type} (repo : Repository σ) (id : String) : Handler σ Unit := do
  Handler.ifThen (isNaN id)
    (Handler.returnJson 400 (Body.error "Invalid user ID format"))
  let user ← Handler.await (repo.delete (parseInt id))
  Handler.ifThen user.isNone
    (Handler.returnJson 404 (Body.notFound "User not found" (parseInt id)))
  Handler.json 200 (Body.deleted true "User deleted successfully" (parseInt id))

/-- The `try` block of the handler bound to a request. -/
def tryBlock {σ : Type} (toLowerCase : String → String) (repo : Repository σ)
    (req : Request) : Handler σ Unit :=
  match req with
  | Request.post name email => createUserTry toLowerCase repo name email
  | Request.getAll => getUsersTry repo
  | Request.get id => getUserByIdTry repo id
  | Request.put id name email => updateUserTry toLowerCase repo id name email
  | Request.delete id => deleteUserTry repo id

/-- The handler bound to a request: its `try` block, and `next(error)` in the
`catch` clause. -/
def handle {σ : Type} (toLowerCase : String → String) (repo : Repository σ)
    (req : Request) : Handler σ Unit :=
  Handler.tryCatchNext (tryBlock toLowerCase repo req)

end Async

/-- A block that has written nothing when it runs to its end or throws, and
exactly one response when it returns. -/
def Handler.Pending {σ α : Type} (m : Handler σ α) : Prop :=
  ∀ w, match m w with
    | (Completion.returned, w1) => ∃ status body, w1.effects = w.effects ++ [Effect.json status body]
    | (_, w1) => w1.effects = w.effects

/-- A block that has written nothing when it throws, and exactly one response
when it runs to its end or returns. -/
def Handler.Answers {σ α : Type} (m : Handler σ α) : Prop :=
  ∀ w, match m w with
    | (Completion.thrown _, w1) => w1.effects = w.effects
    | (_, w1) => ∃ status body, w1.effects = w.effects ++ [Effect.json status body]

/-- Whether a block ended by throwing. -/
def Completion.isThrown {α : Type} : Completion α → Bool
  | Completion.thrown _ => true
  | _ => false

/-- The action on `res` or `next` that an outcome stands for. -/
def Outcome.effect : Outcome → Effect
  | Outcome.respond status body => Effect.json status body
  | Outcome.forward err => Effect.next err

/-- A table in the form the handlers write it, on a driver that does not
fail: every stored e-mail is in lower case, every stored id is below the
`AUTO_INCREMENT` counter, and the counter is positive. -/
def Db.Written (toLowerCase : String → String) (db : Db) : Prop :=
  db.faults = [] ∧ (∀ r ∈ db.rows, toLowerCase r.email = r.email) ∧
    (∀ r ∈ db.rows, r.id < db.nextId) ∧ 0 < db.nextId

/-! # Theorems -/

/-! ## The repository on a driver that does not fail -/

@[simp] theorem Db.logged_rows (db : Db) (sql : Sql) : (db.logged sql).rows = db.rows := rfl

@[simp] theorem Db.logged_nextId (db : Db) (sql : Sql) : (db.logged sql).nextId = db.nextId := rfl

@[simp] theorem Db.logged_now (db : Db) (sql : Sql) : (db.logged sql).now = db.now := rfl

@[simp] theorem Db.logged_faults (db : Db) (sql : Sql) : (db.logged sql).faults = db.faults := rfl

@[simp] theorem Db.logged_log (db : Db) (sql : Sql) : (db.logged sql).log = db.log ++ [sql] := rfl

theorem query_eq_execute {db : Db} (sql : Sql) (h : db.faults = []) :
    query sql db = Db.execute (db.logged sql) sql := by
  simp [query, h, Db.logged]

theorem findById_eq {db : Db} (id : Option Int) (h : db.faults = []) :
    User.findById id db =
      (Except.ok (db.rows.filter (matchesId id)).head?, db.logged (Sql.selectById id)) := by
  simp [User.findById, query_eq_execute _ h, Db.execute]

theorem findByEmail_eq {db : Db} (email : String) (h : db.faults = []) :
    User.findByEmail email db =
      (Except.ok (db.rows.filter (fun r => r.email == email)).head?,
        db.logged (Sql.selectByEmail email)) := by
  simp [User.findByEmail, query_eq_execute _ h, Db.execute]

theorem findAll_eq {db : Db} (h : db.faults = []) :
    User.findAll db = (Except.ok (orderByCreatedAtDesc db.rows), db.logged Sql.selectAll) := by
  simp [User.findAll, query_eq_execute _ h, Db.execute]

theorem count_eq {db : Db} (h : db.faults = []) :
    User.count db = (Except.ok db.rows.length, db.logged Sql.countUsers) := by
  simp [User.count, query_eq_execute _ h, Db.execute]

/-! ## What the e-mail pattern accepts -/

theorem regexMatch_lit {c : Char} {rest : List RegexItem} {cs : List Char}
    (h : regexMatch (RegexItem.lit c :: rest) cs = true) :
    ∃ b, cs = c :: b ∧ regexMatch rest b = true := by
  cases cs with
  | nil => simp [regexMatch] at h
  | cons d ds =>
      simp only [regexMatch, Bool.and_eq_true, beq_iff_eq] at h
      exact ⟨ds, by rw [h.1], h.2⟩

theorem regexMatch_plus {cls : Char → Bool} {rest : List RegexItem} {cs : List Char}
    (h : regexMatch (RegexItem.plus cls :: rest) cs = true) :
    ∃ a b, cs = a ++ b ∧ a ≠ [] ∧ (∀ c ∈ a, cls c = true) ∧ regexMatch rest b = true := by
  induction cs with
  | nil => simp [regexMatch] at h
  | cons d ds ih =>
      simp only [regexMatch, Bool.and_eq_true, Bool.or_eq_true] at h
      obtain ⟨hd, h | h⟩ := h
      · exact ⟨[d], ds, rfl, by simp, by simpa using hd, h⟩
      · obtain ⟨a, b, hab, _, hall, hb⟩ := ih h
        refine ⟨d :: a, b, by rw [hab]; rfl, by simp, ?_, hb⟩
        intro c hc
        rcases List.mem_cons.mp hc with rfl | hc
        · exact hd
        · exact hall c hc

theorem regexMatch_nil {cs : List Char} (h : regexMatch [] cs = true) : cs = [] := by
  cases cs with
  | nil => rfl
  | cons d ds => simp [regexMatch] at h

/-- A string accepted by the e-mail pattern is `a @ b . c` with `a`, `b`, `c`
non-empty runs without white space and without `@`. -/
theorem emailRegexTest_shape {e : String} (h : emailRegexTest e = true) :
    ∃ a b c, e.data = a ++ '@' :: (b ++ '.' :: c) ∧ a ≠ [] ∧ b ≠ [] ∧ c ≠ [] ∧
      (∀ x ∈ a, notSpaceAt x = true) ∧ (∀ x ∈ b, notSpaceAt x = true) ∧
      (∀ x ∈ c, notSpaceAt x = true) := by
  unfold emailRegexTest emailRegex at h
  obtain ⟨a, r1, h1, ha, hall_a, h⟩ := regexMatch_plus h
  obtain ⟨r2, h2, h⟩ := regexMatch_lit h
  obtain ⟨b, r3, h3, hb, hall_b, h⟩ := regexMatch_plus h
  obtain ⟨r4, h4, h⟩ := regexMatch_lit h
  obtain ⟨c, r5, h5, hc, hall_c, h⟩ := regexMatch_plus h
  have h6 := regexMatch_nil h
  subst h6
  refine ⟨a, b, c, ?_, ha, hb, hc, hall_a, hall_b, hall_c⟩
  rw [h1, h2, h3, h4, h5, List.append_nil]

theorem emailRegexTest_sound {e : String} (h : emailRegexTest e = true) :
    '@' ∈ e.data ∧ '.' ∈ e.data ∧ ∀ x ∈ e.data, isWhiteSpace x = false := by
  obtain ⟨a, b, c, he, _, _, _, ha, hb, hc⟩ := emailRegexTest_shape h
  have hns : ∀ x, notSpaceAt x = true → isWhiteSpace x = false := by
    intro x hx
    simp only [notSpaceAt, Bool.and_eq_true, Bool.not_eq_true'] at hx
    exact hx.1
  refine ⟨by rw [he]; simp, by rw [he]; simp, ?_⟩
  intro x hx
  rw [he] at hx
  simp only [List.mem_append, List.mem_cons] at hx
  rcases hx with hx | rfl | hx | rfl | hx
  · exact hns x (ha x hx)
  · decide
  · exact hns x (hb x hx)
  · decide
  · exact hns x (hc x hx)

/-! ## Validation of the request body -/

/-- C6: a create request, or an update request whose path id is numeric, in
which `name` or `email` is missing, `null` or the empty string is answered 400
with error `Name and email are required`, whatever the other field and the
database are; the database, statement log included, is left as it was, so no
repository call is made and the check comes before the format check and before
any lookup. -/
theorem required_fields_checked_first (toLowerCase : String → String)
    (db : Db) (id : String) (name email : Field)
    (h : name = Field.missing ∨ name = Field.null ∨ name = Field.str "" ∨
      email = Field.missing ∨ email = Field.null ∨ email = Field.str "") :
    UserController.createUser toLowerCase name email db =
        (Outcome.respond 400
          (Body.required "Name and email are required" name.truthy email.truthy), db) ∧
      (isNaN id = false →
        UserController.updateUser toLowerCase id name email db =
          (Outcome.respond 400
            (Body.required "Name and email are required" name.truthy email.truthy), db)) := by
  have ht : (!name.truthy || !email.truthy) = true := by
    rcases h with h | h | h | h | h | h <;> subst h <;> simp [Field.truthy]
  constructor
  · simp only [UserController.createUser, ht, if_true]
  · intro hid
    simp only [UserController.updateUser, hid, ht, if_true]
    simp

theorem required_fields_checked_first_witness :
    UserController.createUser asciiLowerCase Field.missing (Field.str "not-an-email") sampleDb =
        (Outcome.respond 400 (Body.required "Name and email are required" false true),
          sampleDb) ∧
      UserController.updateUser asciiLowerCase "1" (Field.str "Ann") (Field.str "") sampleDb =
        (Outcome.respond 400 (Body.required "Name and email are required" true false),
          sampleDb) :=
  ⟨(required_fields_checked_first asciiLowerCase sampleDb "1" Field.missing (Field.str "not-an-email")
      (Or.inl rfl)).1,
   (required_fields_checked_first asciiLowerCase sampleDb "1" (Field.str "Ann") (Field.str "")
      (Or.inr (Or.inr (Or.inr (Or.inr (Or.inr rfl)))))).2 (by decide)⟩

/-- C2: a create request, or an update request whose path id is numeric, with a
non-empty name and an e-mail that is a non-empty string without `@`, or without
`.`, or with a white-space character, is answered 400 with error
`Invalid email format`; the database, statement log included, is left as it
was, so no repository call is made. -/
theorem invalid_email_rejected (toLowerCase : String → String)
    (db : Db) (id : String) (name : Field) (e : String)
    (hn : name.truthy = true) (he : e.data ≠ [])
    (hbad : '@' ∉ e.data ∨ '.' ∉ e.data ∨ ∃ c ∈ e.data, isWhiteSpace c = true) :
    UserController.createUser toLowerCase name (Field.str e) db =
        (Outcome.respond 400 (Body.error "Invalid email format"), db) ∧
      (isNaN id = false →
        UserController.updateUser toLowerCase id name (Field.str e) db =
          (Outcome.respond 400 (Body.error "Invalid email format"), db)) := by
  have hre : emailRegexTest e = false := by
    cases hm : emailRegexTest e with
    | false => rfl
    | true =>
        obtain ⟨h1, h2, h3⟩ := emailRegexTest_sound hm
        rcases hbad with hb | hb | ⟨c, hc, hw⟩
        · exact absurd h1 hb
        · exact absurd h2 hb
        · rw [h3 c hc] at hw
          cases hw
  have het : (Field.str e).truthy = true := by
    cases hd : e.data with
    | nil => exact absurd hd he
    | cons c cs => simp [Field.truthy, hd]
  constructor
  · simp [UserController.createUser, hn, het, Field.text, hre]
  · intro hid
    simp [UserController.updateUser, hid, hn, het, Field.text, hre]

theorem invalid_email_rejected_witness :
    UserController.createUser asciiLowerCase (Field.str "Test User") (Field.str "invalid-email") sampleDb =
        (Outcome.respond 400 (Body.error "Invalid email format"), sampleDb) ∧
      UserController.updateUser asciiLowerCase "2" (Field.str "Test User") (Field.str "a b@ex.com") sampleDb =
        (Outcome.respond 400 (Body.error "Invalid email format"), sampleDb) :=
  ⟨(invalid_email_rejected asciiLowerCase sampleDb "2" (Field.str "Test User") "invalid-email"
      (by decide) (by decide) (Or.inl (by decide))).1,
   (invalid_email_rejected asciiLowerCase sampleDb "2" (Field.str "Test User") "a b@ex.com"
      (by decide) (by decide) (Or.inr (Or.inr ⟨' ', by decide, by decide⟩))).2 (by decide)⟩

/-! ## Reading -/

theorem filter_matchesId_absent {rows : List UserRow} {k : Option Int}
    (h : ∀ r ∈ rows, some r.id ≠ k) : rows.filter (matchesId k) = [] := by
  rw [List.filter_eq_nil_iff]
  intro r hr hm
  simp only [matchesId, beq_iff_eq] at hm
  exact h r hr hm.symm

theorem filter_matchesId_present {rows : List UserRow} {r : UserRow}
    (hnd : (rows.map (fun u => u.id)).Nodup) (hr : r ∈ rows) :
    rows.filter (matchesId (some r.id)) = [r] := by
  induction rows with
  | nil => cases hr
  | cons x xs ih =>
      rw [List.map_cons, List.nodup_cons] at hnd
      rcases List.mem_cons.mp hr with rfl | hr
      · have hx : xs.filter (matchesId (some r.id)) = [] := by
          apply filter_matchesId_absent
          intro u hu heq
          apply hnd.1
          rw [List.mem_map]
          exact ⟨u, hu, by simpa using heq⟩
        simp [List.filter_cons, matchesId, hx]
      · have hne : x.id ≠ r.id := by
          intro heq
          apply hnd.1
          rw [List.mem_map]
          exact ⟨r, hr, heq.symm⟩
        have hx : matchesId (some r.id) x = false := by
          simp [matchesId]
          exact fun h => hne h.symm
        rw [List.filter_cons, hx]
        simpa using ih hnd.2 hr

/-- C5: `getUserById` answers 400 `Invalid user ID format` when `isNaN(id)`
holds; otherwise, with `parseInt(id)` the number looked up, 404
`User not found` when no stored user has that id, and 200 with `success` true
and `data` the stored row of that id when one has it; in all three cases the
rows of the table and the id counter are as before. -/
theorem getUserById_spec (db : Db) (id : String) (hf : db.faults = []) :
    (isNaN id = true →
      UserController.getUserById id db =
        (Outcome.respond 400 (Body.error "Invalid user ID format"), db)) ∧
    (isNaN id = false → (∀ r ∈ db.rows, some r.id ≠ parseInt id) →
      UserController.getUserById id db =
        (Outcome.respond 404 (Body.notFound "User not found" (parseInt id)),
          db.logged (Sql.selectById (parseInt id)))) ∧
    (isNaN id = false → (db.rows.map (fun u => u.id)).Nodup →
      ∀ r ∈ db.rows, parseInt id = some r.id →
        UserController.getUserById id db =
          (Outcome.respond 200 (Body.user true (some r) none),
            db.logged (Sql.selectById (parseInt id)))) ∧
    (UserController.getUserById id db).2.rows = db.rows ∧
    (UserController.getUserById id db).2.nextId = db.nextId := by
  refine ⟨?_, ?_, ?_, ?_, ?_⟩
  · intro hid
    simp [UserController.getUserById, hid]
  · intro hid habs
    simp [UserController.getUserById, hid, findById_eq _ hf, filter_matchesId_absent habs]
  · intro hid hnd r hr hk
    simp [UserController.getUserById, hid, findById_eq _ hf, hk,
      filter_matchesId_present hnd hr]
  · unfold UserController.getUserById
    rw [findById_eq _ hf]
    split
    · rfl
    · cases (db.rows.filter (matchesId (parseInt id))).head? <;> rfl
  · unfold UserController.getUserById
    rw [findById_eq _ hf]
    split
    · rfl
    · cases (db.rows.filter (matchesId (parseInt id))).head? <;> rfl

theorem getUserById_spec_witness :
    UserController.getUserById "invalid-id" sampleDb =
        (Outcome.respond 400 (Body.error "Invalid user ID format"), sampleDb) ∧
      UserController.getUserById "99999" sampleDb =
        (Outcome.respond 404 (Body.notFound "User not found" (some 99999)),
          sampleDb.logged (Sql.selectById (some 99999))) ∧
      UserController.getUserById "2" sampleDb =
        (Outcome.respond 200 (Body.user true (some bobRow) none),
          sampleDb.logged (Sql.selectById (some 2))) :=
  ⟨(getUserById_spec sampleDb "invalid-id" rfl).1 (by decide),
   (getUserById_spec sampleDb "99999" rfl).2.1 (by decide) (by decide),
   (getUserById_spec sampleDb "2" rfl).2.2.1 (by decide) (by decide) bobRow (by decide)
     (by decide)⟩

/-! ## Listing -/

theorem orderByCreatedAtDesc_perm (rows : List UserRow) :
    (orderByCreatedAtDesc rows).Perm rows :=
  List.perm_insertionSort _ rows

theorem orderByCreatedAtDesc_sorted (rows : List UserRow) :
    (orderByCreatedAtDesc rows).Sorted (fun a b => b.created_at ≤ a.created_at) := by
  haveI : IsTotal UserRow (fun a b => b.created_at ≤ a.created_at) :=
    ⟨fun a b => Nat.le_total b.created_at a.created_at⟩
  haveI : IsTrans UserRow (fun a b => b.created_at ≤ a.created_at) :=
    ⟨fun _ _ _ hab hbc => Nat.le_trans hbc hab⟩
  exact List.sorted_insertionSort _ rows

/-- C9: on a driver that does not fail, `getUsers` answers 200 with `data` the
stored rows in the order of `ORDER BY created_at DESC`, which is a permutation
of the table sorted by `created_at` descending; `meta.total` is the row count
of the table, `meta.count` the length of `data`, and the two are equal; the
handler runs `SELECT` then `COUNT` and leaves the table as it was. -/
theorem getUsers_spec (db : Db) (hf : db.faults = []) :
    UserController.getUsers db =
        (Outcome.respond 200
          (Body.list true (orderByCreatedAtDesc db.rows) db.rows.length
            (orderByCreatedAtDesc db.rows).length),
          (db.logged Sql.selectAll).logged Sql.countUsers) ∧
      (orderByCreatedAtDesc db.rows).Perm db.rows ∧
      (orderByCreatedAtDesc db.rows).Sorted (fun a b => b.created_at ≤ a.created_at) ∧
      db.rows.length = (orderByCreatedAtDesc db.rows).length := by
  refine ⟨?_, orderByCreatedAtDesc_perm _, orderByCreatedAtDesc_sorted _,
    ((orderByCreatedAtDesc_perm db.rows).length_eq).symm⟩
  have hf1 : (db.logged Sql.selectAll).faults = [] := hf
  simp [UserController.getUsers, findAll_eq hf, count_eq hf1]

theorem getUsers_spec_witness :
    UserController.getUsers sampleDb =
        (Outcome.respond 200 (Body.list true [bobRow, annRow] 2 2),
          (sampleDb.logged Sql.selectAll).logged Sql.countUsers) ∧
      [bobRow, annRow].Perm sampleDb.rows ∧
      [bobRow, annRow].Sorted (fun a b => b.created_at ≤ a.created_at) ∧
      sampleDb.rows.length = [bobRow, annRow].length :=
  getUsers_spec sampleDb rfl

/-! ## Deleting -/

theorem filter_not_matchesId_eq_erase {rows : List UserRow} {r : UserRow}
    (hnd : (rows.map (fun u => u.id)).Nodup) (hr : r ∈ rows) :
    rows.filter (fun u => !(matchesId (some r.id) u)) = rows.erase r := by
  induction rows with
  | nil => cases hr
  | cons x xs ih =>
      rw [List.map_cons, List.nodup_cons] at hnd
      by_cases hx : x = r
      · subst hx
        have hxs : xs.filter (fun u => !(matchesId (some x.id) u)) = xs := by
          rw [List.filter_eq_self]
          intro u hu
          simp only [matchesId, Bool.not_eq_true', beq_eq_false_iff_ne, ne_eq, Option.some.injEq]
          intro heq
          apply hnd.1
          rw [List.mem_map]
          exact ⟨u, hu, heq.symm⟩
        rw [List.filter_cons, hxs]
        simp [matchesId]
      · have hr2 : r ∈ xs := by
          rcases List.mem_cons.mp hr with h | h
          · exact absurd h.symm hx
          · exact h
        have hne : x.id ≠ r.id := by
          intro heq
          apply hnd.1
          rw [List.mem_map]
          exact ⟨r, hr2, heq.symm⟩
        have hm : matchesId (some r.id) x = false := by
          simp [matchesId]
          exact fun h => hne h.symm
        rw [List.filter_cons, hm, List.erase_cons_tail (by simpa using hx)]
        simpa using ih hnd.2 hr2

/-- C7: on a driver that does not fail and for a numeric path id, with
`parseInt(id)` the number looked up: if no stored user has that id,
`User.delete` returns `null` after the `SELECT` alone (no `DELETE` statement is
logged), `deleteUser` answers 404 `User not found` and the table is unchanged;
if a stored user has it, exactly that row is removed from the table, every
other row staying as it was and in place, `User.delete` returns the row as it
was before, and `deleteUser` answers 200 with `data` holding the id. -/
theorem delete_spec (db : Db) (id : String) (hf : db.faults = []) (hid : isNaN id = false) :
    ((∀ r ∈ db.rows, some r.id ≠ parseInt id) →
      User.delete (parseInt id) db =
          (Except.ok none, db.logged (Sql.selectById (parseInt id))) ∧
        UserController.deleteUser id db =
          (Outcome.respond 404 (Body.notFound "User not found" (parseInt id)),
            db.logged (Sql.selectById (parseInt id)))) ∧
    ((db.rows.map (fun u => u.id)).Nodup → ∀ r ∈ db.rows, parseInt id = some r.id →
      User.delete (parseInt id) db =
          (Except.ok (some r),
            { db with
              rows := db.rows.erase r,
              log := db.log ++ [Sql.selectById (some r.id), Sql.deleteById (some r.id)] }) ∧
        UserController.deleteUser id db =
          (Outcome.respond 200 (Body.deleted true "User deleted successfully" (some r.id)),
            { db with
              rows := db.rows.erase r,
              log := db.log ++ [Sql.selectById (some r.id), Sql.deleteById (some r.id)] })) := by
  constructor
  · intro habs
    have hd : User.delete (parseInt id) db =
        (Except.ok none, db.logged (Sql.selectById (parseInt id))) := by
      simp [User.delete, findById_eq _ hf, filter_matchesId_absent habs]
    exact ⟨hd, by simp [UserController.deleteUser, hid, hd]⟩
  · intro hnd r hr hk
    have hf1 : (db.logged (Sql.selectById (some r.id))).faults = [] := hf
    have hd : User.delete (parseInt id) db =
        (Except.ok (some r),
          { db with
            rows := db.rows.erase r,
            log := db.log ++ [Sql.selectById (some r.id), Sql.deleteById (some r.id)] }) := by
      simp only [User.delete, hk, findById_eq _ hf, filter_matchesId_present hnd hr,
        List.head?_cons, query_eq_execute _ hf1]
      simp [Db.execute, filter_not_matchesId_eq_erase hnd hr, filter_matchesId_present hnd hr,
        Db.logged]
    refine ⟨hd, ?_⟩
    simp only [UserController.deleteUser, hid, hd]
    simp [hk]

theorem delete_spec_witness :
    (User.delete (some 7) sampleDb =
        (Except.ok none, sampleDb.logged (Sql.selectById (some 7))) ∧
      UserController.deleteUser "7" sampleDb =
        (Outcome.respond 404 (Body.notFound "User not found" (some 7)),
          sampleDb.logged (Sql.selectById (some 7)))) ∧
    (User.delete (some 1) sampleDb =
        (Except.ok (some annRow),
          { sampleDb with
            rows := [bobRow],
            log := [Sql.selectById (some 1), Sql.deleteById (some 1)] }) ∧
      UserController.deleteUser "1" sampleDb =
        (Outcome.respond 200 (Body.deleted true "User deleted successfully" (some 1)),
          { sampleDb with
            rows := [bobRow],
            log := [Sql.selectById (some 1), Sql.deleteById (some 1)] })) :=
  ⟨(delete_spec sampleDb "7" rfl (by decide)).1 (by decide),
   (delete_spec sampleDb "1" rfl (by decide)).2 (by decide) annRow (by decide) (by decide)⟩

/-! ## Decimal path segments are numeric and parse to their number -/

theorem digitChar_isDecimalDigit {d : Nat} (h : d < 10) :
    isDecimalDigit (Nat.digitChar d) = true := by
  interval_cases d <;> decide

theorem digitChar_digitValue {d : Nat} (h : d < 10) :
    digitValue 10 (Nat.digitChar d) = some d := by
  interval_cases d <;> decide

theorem decimalAux_append (fuel n : Nat) (acc : List Char) :
    decimalAux fuel n acc = decimalAux fuel n [] ++ acc := by
  induction fuel generalizing n acc with
  | zero => simp [decimalAux]
  | succ fuel ih =>
      simp only [decimalAux]
      split
      · simp
      · rw [ih (n / 10) (Nat.digitChar (n % 10) :: acc), ih (n / 10) [Nat.digitChar (n % 10)]]
        simp

theorem decimalAux_ne_nil (fuel n : Nat) : decimalAux (fuel + 1) n [] ≠ [] := by
  simp only [decimalAux]
  split
  · simp
  · rw [decimalAux_append]
    simp

theorem decimalAux_digits (fuel n : Nat) :
    ∀ c ∈ decimalAux fuel n [], isDecimalDigit c = true := by
  induction fuel generalizing n with
  | zero => simp [decimalAux]
  | succ fuel ih =>
      intro c hc
      simp only [decimalAux] at hc
      split at hc
      · rename_i hlt
        rw [List.mem_singleton] at hc
        rw [hc]
        exact digitChar_isDecimalDigit hlt
      · rw [decimalAux_append, List.mem_append, List.mem_singleton] at hc
        rcases hc with hc | hc
        · exact ih _ c hc
        · rw [hc]
          exact digitChar_isDecimalDigit (Nat.mod_lt _ (by decide))

/-- The value `parseInt` computes from a run of decimal digits. -/
theorem decimalAux_value (fuel n : Nat) (h : n < fuel) :
    (decimalAux fuel n []).foldl (fun acc c => acc * 10 + (digitValue 10 c).getD 0) 0 = n := by
  induction fuel generalizing n with
  | zero => omega
  | succ fuel ih =>
      simp only [decimalAux]
      split
      · rename_i hlt
        simp [digitChar_digitValue hlt]
      · rename_i hge
        rw [decimalAux_append, List.foldl_append, ih (n / 10) (by omega)]
        simp [digitChar_digitValue (Nat.mod_lt n (by decide : 0 < 10))]
        omega

theorem isDecimalDigit_digitValue {c : Char} (h : isDecimalDigit c = true) :
    digitValue 10 c = some (c.toNat - 48) := by
  simp only [isDecimalDigit, Bool.and_eq_true, decide_eq_true_eq] at h
  simp only [digitValue, h.1, h.2, and_self, if_true]
  have : c.toNat - 48 < 10 := by omega
  simp [Option.filter, this]

theorem isDecimalDigit_not_space {c : Char} (h : isDecimalDigit c = true) :
    isWhiteSpace c = false := by
  simp only [isDecimalDigit, Bool.and_eq_true, decide_eq_true_eq] at h
  simp only [isWhiteSpace, Bool.or_eq_false_iff, Bool.and_eq_false_iff, beq_eq_false_iff_ne,
    decide_eq_false_iff_not]
  omega

theorem trimStart_of_head {c : Char} {cs : List Char} (h : isWhiteSpace c = false) :
    trimStart (c :: cs) = c :: cs := by
  simp [trimStart, List.dropWhile, h]

theorem trimEnd_of_digits {cs : List Char} (h : ∀ c ∈ cs, isDecimalDigit c = true) :
    trimEnd cs = cs := by
  unfold trimEnd
  cases hr : cs.reverse with
  | nil => simp [trimStart, List.reverse_eq_nil_iff.mp hr]
  | cons d ds =>
      have hd : d ∈ cs := by
        rw [← List.mem_reverse, hr]
        exact List.mem_cons_self d ds
      rw [trimStart_of_head (isDecimalDigit_not_space (h d hd)), ← hr, List.reverse_reverse]

theorem dropSign_of_digit {c : Char} {cs : List Char} (h : isDecimalDigit c = true) :
    dropSign (c :: cs) = c :: cs := by
  have h1 : c ≠ '-' := by
    rintro rfl
    exact absurd h (by decide)
  have h2 : c ≠ '+' := by
    rintro rfl
    exact absurd h (by decide)
  simp [dropSign, h1, h2]

theorem hasHexMark_of_digits {cs : List Char} (h : ∀ c ∈ cs, isDecimalDigit c = true) :
    hasHexMark cs = false := by
  match cs, h with
  | [], _ => rfl
  | [_], _ => simp [hasHexMark]
  | c :: x :: r, h =>
      have hx : isDecimalDigit x = true := h x (by simp)
      have h1 : x ≠ 'x' := by
        rintro rfl
        exact absurd hx (by decide)
      have h2 : x ≠ 'X' := by
        rintro rfl
        exact absurd hx (by decide)
      simp [hasHexMark, h1, h2]

theorem isNonDecimal_of_digits {cs : List Char} (h : ∀ c ∈ cs, isDecimalDigit c = true) :
    isNonDecimal cs = false := by
  unfold isNonDecimal
  split
  · rename_i x ds
    have hx : isDecimalDigit x = true := h x (by simp)
    have h1 : x ≠ 'x' := by rintro rfl; exact absurd hx (by decide)
    have h2 : x ≠ 'X' := by rintro rfl; exact absurd hx (by decide)
    have h3 : x ≠ 'o' := by rintro rfl; exact absurd hx (by decide)
    have h4 : x ≠ 'O' := by rintro rfl; exact absurd hx (by decide)
    have h5 : x ≠ 'b' := by rintro rfl; exact absurd hx (by decide)
    have h6 : x ≠ 'B' := by rintro rfl; exact absurd hx (by decide)
    simp [h1, h2, h3, h4, h5, h6]
  · rfl

theorem isUnsignedDecimal_of_digits {c : Char} {cs : List Char}
    (h : ∀ x ∈ c :: cs, isDecimalDigit x = true) : isUnsignedDecimal (c :: cs) = true := by
  have hc : isDecimalDigit c = true := h c (by simp)
  have hI : c :: cs ≠ "Infinity".data := by
    intro heq
    have : c = 'I' := by
      have := congrArg List.head? heq
      simpa using this
    rw [this] at hc
    exact absurd hc (by decide)
  have ht : (c :: cs).takeWhile isDecimalDigit = c :: cs :=
    List.takeWhile_eq_self_iff.mpr h
  have hd : (c :: cs).dropWhile isDecimalDigit = [] :=
    List.dropWhile_eq_nil_iff.mpr h
  unfold isUnsignedDecimal
  rw [if_neg hI]
  simp only [ht, hd]
  rfl

theorem isNaN_of_digits {c : Char} {cs : List Char}
    (h : ∀ x ∈ c :: cs, isDecimalDigit x = true) : isNaN ⟨c :: cs⟩ = false := by
  have hc : isDecimalDigit c = true := h c (by simp)
  simp [isNaN, trimStart_of_head (isDecimalDigit_not_space hc), trimEnd_of_digits h,
    isStrNumericLiteral, dropSign_of_digit hc, isUnsignedDecimal_of_digits h]

theorem parseInt_of_digits {c : Char} {cs : List Char}
    (h : ∀ x ∈ c :: cs, isDecimalDigit x = true) :
    parseInt ⟨c :: cs⟩ =
      (toDouble ((c :: cs).foldl (fun acc x => acc * 10 + (digitValue 10 x).getD 0) 0)).map
        (fun (v : Nat) => (v : Int)) := by
  have hc : isDecimalDigit c = true := h c (by simp)
  have h1 : c ≠ '-' := by
    rintro rfl
    exact absurd hc (by decide)
  have ht : (c :: cs).takeWhile (fun x => (digitValue 10 x).isSome) = c :: cs := by
    rw [List.takeWhile_eq_self_iff]
    intro x hx
    rw [isDecimalDigit_digitValue (h x hx)]
    rfl
  simp only [parseInt, trimStart_of_head (isDecimalDigit_not_space hc), dropSign_of_digit hc,
    hasHexMark_of_digits h]
  simp [ht, h1]

theorem isNaN_of_minus_digits {c : Char} {cs : List Char}
    (h : ∀ x ∈ c :: cs, isDecimalDigit x = true) : isNaN ⟨'-' :: c :: cs⟩ = false := by
  have hall : ∀ x ∈ '-' :: c :: cs, isWhiteSpace x = false := by
    intro x hx
    rcases List.mem_cons.mp hx with rfl | hx
    · decide
    · exact isDecimalDigit_not_space (h x hx)
  have hend : trimEnd ('-' :: c :: cs) = '-' :: c :: cs := by
    unfold trimEnd
    cases hr : ('-' :: c :: cs).reverse with
    | nil => simp at hr
    | cons d ds =>
        have hd : d ∈ '-' :: c :: cs := by
          rw [← List.mem_reverse, hr]
          exact List.mem_cons_self d ds
        rw [trimStart_of_head (hall d hd), ← hr, List.reverse_reverse]
  have hs : dropSign ('-' :: c :: cs) = c :: cs := by simp [dropSign]
  have hnd : isNonDecimal ('-' :: c :: cs) = false := by
    simp [isNonDecimal]
  simp [isNaN, trimStart_of_head (by decide : isWhiteSpace '-' = false), hend,
    isStrNumericLiteral, hs, isUnsignedDecimal_of_digits h, hnd]

theorem parseInt_of_minus_digits {c : Char} {cs : List Char}
    (h : ∀ x ∈ c :: cs, isDecimalDigit x = true) :
    parseInt ⟨'-' :: c :: cs⟩ =
      (toDouble ((c :: cs).foldl (fun acc x => acc * 10 + (digitValue 10 x).getD 0) 0)).map
        (fun (v : Nat) => -(v : Int)) := by
  have ht : (c :: cs).takeWhile (fun x => (digitValue 10 x).isSome) = c :: cs := by
    rw [List.takeWhile_eq_self_iff]
    intro x hx
    rw [isDecimalDigit_digitValue (h x hx)]
    rfl
  have hs : dropSign ('-' :: c :: cs) = c :: cs := by simp [dropSign]
  simp only [parseInt, trimStart_of_head (by decide : isWhiteSpace '-' = false), hs,
    hasHexMark_of_digits h]
  simp [ht]

/-- The decimal path segment of an id within the exactly representable
integers is accepted by the numeric check and parses back to the id. -/
theorem pathOf_numeric (z : Int) (hz : z.natAbs < 2 ^ 53) :
    isNaN (pathOf z) = false ∧ parseInt (pathOf z) = some z := by
  have hdig := decimalAux_digits (z.natAbs + 1) z.natAbs
  have hval := decimalAux_value (z.natAbs + 1) z.natAbs (Nat.lt_succ_self _)
  have hne := decimalAux_ne_nil z.natAbs z.natAbs
  have htd : toDouble z.natAbs = some z.natAbs := by
    unfold toDouble
    rw [if_pos hz]
  cases hd : decimalAux (z.natAbs + 1) z.natAbs [] with
  | nil => exact absurd hd hne
  | cons c cs =>
      rw [hd] at hdig hval
      unfold pathOf decimal
      by_cases hneg : z < 0
      · rw [if_pos hneg, hd]
        refine ⟨isNaN_of_minus_digits hdig, ?_⟩
        rw [parseInt_of_minus_digits hdig, hval, htd]
        simp only [Option.map_some', Option.some.injEq]
        omega
      · rw [if_neg hneg, hd]
        refine ⟨isNaN_of_digits hdig, ?_⟩
        rw [parseInt_of_digits hdig, hval, htd]
        simp only [Option.map_some', Option.some.injEq]
        omega

/-! ## Writing on a driver that does not fail -/

@[simp] theorem Db.logged_newRow (db : Db) (sql : Sql) (name email : String) :
    (db.logged sql).newRow name email = db.newRow name email := rfl

@[simp] theorem Db.logged_updatedRow (db : Db) (sql : Sql) (name email : String) :
    (db.logged sql).updatedRow name email = db.updatedRow name email := rfl

/-- The table after an `INSERT` of the given name and e-mail. -/
theorem create_eq {db : Db} (name email : String) (hf : db.faults = []) :
    User.create name email db =
      if db.rows.any (fun r => r.email == email) then
        (Except.error erDupEntry, db.logged (Sql.insertUser name email))
      else
        (Except.ok
          ((db.rows ++ [db.newRow name email]).filter (matchesId (some db.nextId))).head?,
         { db with
           rows := db.rows ++ [db.newRow name email],
           nextId := db.nextId + 1,
           log := db.log ++ [Sql.insertUser name email, Sql.selectById (some db.nextId)] }) := by
  unfold User.create
  rw [query_eq_execute _ hf]
  simp only [Db.execute, Db.logged_rows]
  split_ifs with h
  · rfl
  · simp only [Db.logged_nextId, Db.logged_newRow]
    rw [findById_eq _ (by exact hf)]
    simp [Db.logged]

theorem update_eq {db : Db} (id : Option Int) (name email : String) (hf : db.faults = []) :
    User.update id name email db =
      if (db.rows.filter (matchesId id)).isEmpty then
        (Except.ok none, db.logged (Sql.updateUser name email id))
      else if db.rows.any (fun r => !(matchesId id r) && r.email == email) then
        (Except.error erDupEntry, db.logged (Sql.updateUser name email id))
      else
        (Except.ok
          ((db.rows.map (fun r =>
              if matchesId id r then db.updatedRow name email r else r)).filter
            (matchesId id)).head?,
         { db with
           rows := db.rows.map (fun r =>
             if matchesId id r then db.updatedRow name email r else r),
           log := db.log ++ [Sql.updateUser name email id, Sql.selectById id] }) := by
  unfold User.update
  rw [query_eq_execute _ hf]
  simp only [Db.execute, Db.logged_rows]
  split_ifs with h1 h2
  · simp
  · rfl
  · have hlen : (db.rows.filter (matchesId id)).length ≠ 0 := by
      intro h0
      apply h1
      rw [List.length_eq_zero] at h0
      simp [h0]
    simp only [hlen, if_false, Db.logged_updatedRow]
    rw [findById_eq _ (by exact hf)]
    simp [Db.logged]

theorem delete_eq {db : Db} (id : Option Int) (hf : db.faults = []) :
    User.delete id db =
      match (db.rows.filter (matchesId id)).head? with
      | none => (Except.ok none, db.logged (Sql.selectById id))
      | some user =>
          (Except.ok (some user),
            { db with
              rows := db.rows.filter (fun r => !(matchesId id r)),
              log := db.log ++ [Sql.selectById id, Sql.deleteById id] }) := by
  unfold User.delete
  rw [findById_eq _ hf]
  cases hh : (db.rows.filter (matchesId id)).head? with
  | none => rfl
  | some user =>
      have hf1 : (db.logged (Sql.selectById id)).faults = [] := hf
      simp only [query_eq_execute _ hf1, Db.execute, Db.logged_rows]
      have hlen : (db.rows.filter (matchesId id)).length ≠ 0 := by
        intro h0
        rw [List.length_eq_zero] at h0
        rw [h0] at hh
        cases hh
      simp [hlen, Db.logged]

/-- What `createUser` does with a body that passes validation. -/
theorem createUser_eq {db : Db} (toLowerCase : String → String)
    (name email : Field) (hf : db.faults = [])
    (hn : name.truthy = true) (he : email.truthy = true)
    (hre : emailRegexTest email.text = true) :
    UserController.createUser toLowerCase name email db =
      if ((db.rows.filter (fun r => r.email == email.text)).head?).isSome then
        (Outcome.respond 409 (Body.error "Email already exists"),
          db.logged (Sql.selectByEmail email.text))
      else
        match User.create (trim name.text) (trim (toLowerCase email.text))
            (db.logged (Sql.selectByEmail email.text)) with
        | (Except.error e, db2) => (Outcome.forward e, db2)
        | (Except.ok user, db2) =>
            (Outcome.respond 201 (Body.user true user (some "User created successfully")), db2) := by
  unfold UserController.createUser
  simp only [hn, he, hre, Bool.not_true, Bool.or_self, Bool.false_eq_true, if_false]
  rw [findByEmail_eq _ hf]
  cases (db.rows.filter (fun r => r.email == email.text)).head? <;> simp

/-! ## Creating -/

theorem filter_matchesId_append_new {db : Db} (name email : String)
    (hfresh : ∀ r ∈ db.rows, r.id ≠ db.nextId) :
    ((db.rows ++ [db.newRow name email]).filter (matchesId (some db.nextId))).head? =
      some (db.newRow name email) := by
  have h1 : db.rows.filter (matchesId (some db.nextId)) = [] := by
    apply filter_matchesId_absent
    intro r hr heq
    exact hfresh r hr (by simpa using heq)
  simp [List.filter_append, h1, matchesId, Db.newRow]

/-- A create request that passes validation, on a table where neither the
e-mail as sent nor its normalised form is stored and the id counter is fresh:
the answer is 201 with the new row, whose id is the counter, whose name is the
trimmed name and whose e-mail is the trimmed lower-case e-mail, and the table
is the previous one followed by that row. -/
theorem createUser_fresh (toLowerCase : String → String)
    (db : Db) (n e : String) (hf : db.faults = [])
    (hn : n.data ≠ []) (hre : emailRegexTest e = true)
    (hraw : ∀ r ∈ db.rows, r.email ≠ e)
    (hnorm : ∀ r ∈ db.rows, r.email ≠ trim (toLowerCase e))
    (hfresh : ∀ r ∈ db.rows, r.id ≠ db.nextId) :
    UserController.createUser toLowerCase (Field.str n) (Field.str e) db =
      (Outcome.respond 201
        (Body.user true (some (db.newRow (trim n) (trim (toLowerCase e))))
          (some "User created successfully")),
       { db with
         rows := db.rows ++ [db.newRow (trim n) (trim (toLowerCase e))],
         nextId := db.nextId + 1,
         log := db.log ++ [Sql.selectByEmail e,
           Sql.insertUser (trim n) (trim (toLowerCase e)), Sql.selectById (some db.nextId)] }) := by
  have hnt : (Field.str n).truthy = true := by
    cases hd : n.data with
    | nil => exact absurd hd hn
    | cons c cs => simp [Field.truthy, hd]
  have het : (Field.str e).truthy = true := by
    obtain ⟨a, b, c, hshape, ha, _⟩ := emailRegexTest_shape hre
    cases hd : e.data with
    | nil => rw [hd] at hshape; simp at hshape
    | cons c cs => simp [Field.truthy, hd]
  have h1 : db.rows.filter (fun r => r.email == e) = [] := by
    rw [List.filter_eq_nil_iff]
    intro r hr hm
    exact hraw r hr (by simpa using hm)
  have h2 : ((db.logged (Sql.selectByEmail e)).rows.any
      (fun r => r.email == trim (toLowerCase e))) = false := by
    rw [Db.logged_rows, List.any_eq_false]
    intro r hr hm
    exact hnorm r hr (by simpa using hm)
  rw [createUser_eq toLowerCase _ _ hf hnt het hre]
  simp only [Field.text, h1, List.head?_nil, Option.isSome_none, Bool.false_eq_true, if_false]
  rw [create_eq _ _ (by exact hf), h2]
  simp only [Bool.false_eq_true, if_false, Db.logged_rows, Db.logged_nextId, Db.logged_newRow]
  rw [filter_matchesId_append_new _ _ hfresh]
  simp [Db.logged]

/-- C3: for every lower-casing function, on a driver that does not fail and a
table in the form the handlers write it (every stored e-mail is in lower case,
every stored id is below the id counter, and the counter is positive): a create
request with a non-empty name `n` and an e-mail `e` of valid format whose lower
case, which has no white space to trim, is the e-mail of no user, is answered
201 with `success` true and a row whose id is positive and held by no user
before, whose name is `trim(n)` and whose e-mail is `trim(lowercase(e))`; the
table afterwards is the previous table followed by exactly that row. -/
theorem createUser_unique_email (toLowerCase : String → String) (db : Db) (n e : String)
    (hf : db.faults = [])
    (hlower : ∀ r ∈ db.rows, toLowerCase r.email = r.email)
    (hids : ∀ r ∈ db.rows, r.id < db.nextId) (hpos : 0 < db.nextId)
    (hn : n.data ≠ []) (hre : emailRegexTest e = true)
    (htrim : trim (toLowerCase e) = toLowerCase e)
    (hnone : ∀ r ∈ db.rows, r.email ≠ toLowerCase e) :
    UserController.createUser toLowerCase (Field.str n) (Field.str e) db =
        (Outcome.respond 201
          (Body.user true (some (db.newRow (trim n) (trim (toLowerCase e))))
            (some "User created successfully")),
         { db with
           rows := db.rows ++ [db.newRow (trim n) (trim (toLowerCase e))],
           nextId := db.nextId + 1,
           log := db.log ++ [Sql.selectByEmail e,
             Sql.insertUser (trim n) (trim (toLowerCase e)), Sql.selectById (some db.nextId)] }) ∧
      0 < (db.newRow (trim n) (trim (toLowerCase e))).id ∧
      (∀ r ∈ db.rows, r.id ≠ (db.newRow (trim n) (trim (toLowerCase e))).id) ∧
      (db.newRow (trim n) (trim (toLowerCase e))).name = trim n ∧
      (db.newRow (trim n) (trim (toLowerCase e))).email = trim (toLowerCase e) ∧
      (db.newRow (trim n) (trim (toLowerCase e))).email = toLowerCase e := by
  have hraw : ∀ r ∈ db.rows, r.email ≠ e := by
    intro r hr heq
    apply hnone r hr
    calc r.email = toLowerCase r.email := (hlower r hr).symm
      _ = toLowerCase e := by rw [heq]
  have hnorm : ∀ r ∈ db.rows, r.email ≠ trim (toLowerCase e) := by
    intro r hr
    rw [htrim]
    exact hnone r hr
  have hfresh : ∀ r ∈ db.rows, r.id ≠ db.nextId := fun r hr => ne_of_lt (hids r hr)
  exact ⟨createUser_fresh toLowerCase db n e hf hn hre hraw hnorm hfresh, hpos, hfresh, rfl, rfl,
    htrim⟩

theorem createUser_unique_email_witness :
    UserController.createUser asciiLowerCase (Field.str " Cy ") (Field.str "Cy@Ex.com") sampleDb =
        (Outcome.respond 201
          (Body.user true
            (some { id := 3, name := "Cy", email := "cy@ex.com", created_at := 30,
                    updated_at := 30 })
            (some "User created successfully")),
         { sampleDb with
           rows := [annRow, bobRow,
             { id := 3, name := "Cy", email := "cy@ex.com", created_at := 30, updated_at := 30 }],
           nextId := 4,
           log := [Sql.selectByEmail "Cy@Ex.com", Sql.insertUser "Cy" "cy@ex.com",
             Sql.selectById (some 3)] }) :=
  (createUser_unique_email asciiLowerCase sampleDb " Cy " "Cy@Ex.com" rfl (by decide) (by decide)
    (by decide) (by decide) (by decide) (by decide) (by decide)).1

/-- C1 (evaluation at the failing input): on an empty table, a create with
e-mail `ann@ex.com` is answered 201; a second create with `ANN@EX.com`, which
differs only by letter case, is not answered 409 `Email already exists` by the
handler: the look-up by the e-mail as sent finds nothing, the `INSERT` of the
lower-cased e-mail hits the `UNIQUE` key, and the duplicate-entry error is
forwarded to the error middleware.  No row is inserted. -/
theorem createUser_case_variant_forwarded :
    (UserController.createUser asciiLowerCase (Field.str "Ann") (Field.str "ann@ex.com") emptyDb).1 =
        Outcome.respond 201
          (Body.user true
            (some { id := 1, name := "Ann", email := "ann@ex.com", created_at := 100,
                    updated_at := 100 })
            (some "User created successfully")) ∧
      asciiLowerCase "ANN@EX.com" = asciiLowerCase "ann@ex.com" ∧
      emailRegexTest "ANN@EX.com" = true ∧
      (UserController.createUser asciiLowerCase (Field.str "Ann") (Field.str "ANN@EX.com")
          (UserController.createUser asciiLowerCase (Field.str "Ann") (Field.str "ann@ex.com") emptyDb).2).1 =
        Outcome.forward erDupEntry ∧
      (UserController.createUser asciiLowerCase (Field.str "Ann") (Field.str "ANN@EX.com")
          (UserController.createUser asciiLowerCase (Field.str "Ann") (Field.str "ann@ex.com") emptyDb).2).2.rows =
        (UserController.createUser asciiLowerCase (Field.str "Ann") (Field.str "ann@ex.com") emptyDb).2.rows := by
  decide

/-- C10: on a driver that does not fail and with the id counter within the
exactly representable integers, whenever `createUser` answers 201 the body
carries a row, and a `getUserById` on the decimal path of that row's id, run on
the database the create left, answers 200 with `data` equal to that row (all
five fields: id, name, email, created_at, updated_at). -/
theorem create_then_get (toLowerCase : String → String) (db : Db) (name email : Field) (body : Body)
    (hf : db.faults = []) (hb : db.nextId.natAbs < 2 ^ 53)
    (hc : (UserController.createUser toLowerCase name email db).1 = Outcome.respond 201 body) :
    ∃ r msg, body = Body.user true (some r) msg ∧
      UserController.getUserById (pathOf r.id) (UserController.createUser toLowerCase name email db).2 =
        (Outcome.respond 200 (Body.user true (some r) none),
          (UserController.createUser toLowerCase name email db).2.logged (Sql.selectById (some r.id))) := by
  by_cases hv : (!name.truthy || !email.truthy) = true
  · simp [UserController.createUser, hv] at hc
  by_cases hre : emailRegexTest email.text = true
  swap
  · simp [UserController.createUser, hv, hre] at hc
  have hn : name.truthy = true := by
    cases h : name.truthy <;> simp [h] at hv ⊢
  have he : email.truthy = true := by
    cases h : email.truthy <;> simp [h] at hv ⊢
  rw [createUser_eq toLowerCase _ _ hf hn he hre] at hc ⊢
  by_cases h1 : ((db.rows.filter (fun r => r.email == email.text)).head?).isSome = true
  · rw [if_pos h1] at hc
    simp at hc
  rw [if_neg h1, create_eq _ _ (by exact hf)] at hc ⊢
  by_cases h2 : ((db.logged (Sql.selectByEmail email.text)).rows.any
      (fun r => r.email == trim (toLowerCase email.text))) = true
  · rw [if_pos h2] at hc
    simp at hc
  rw [if_neg h2] at hc ⊢
  simp only [Db.logged_rows, Db.logged_nextId, Db.logged_newRow] at hc ⊢
  cases hh : ((db.rows ++ [db.newRow (trim name.text) (trim (toLowerCase email.text))]).filter
      (matchesId (some db.nextId))).head? with
  | none =>
      exfalso
      rw [List.head?_eq_none_iff, List.filter_eq_nil_iff] at hh
      exact hh (db.newRow (trim name.text) (trim (toLowerCase email.text))) (by simp)
        (by simp [matchesId, Db.newRow])
  | some r =>
      have hrid : r.id = db.nextId := by
        have hm := List.mem_of_mem_head? hh
        rw [List.mem_filter] at hm
        have h3 := hm.2
        simp only [matchesId, beq_iff_eq, Option.some.injEq] at h3
        exact h3.symm
      rw [hh] at hc
      simp only [Outcome.respond.injEq, true_and] at hc
      refine ⟨r, some "User created successfully", hc.symm, ?_⟩
      obtain ⟨hnan, hparse⟩ := pathOf_numeric r.id (by rw [hrid]; exact hb)
      simp only [UserController.getUserById, hnan, hparse, Bool.false_eq_true, if_false]
      rw [findById_eq _ (by exact hf)]
      simp only [hrid, hh]

theorem create_then_get_witness :
    ∃ r msg,
      Body.user true (some (sampleDb.newRow "Cy" "cy@ex.com")) (some "User created successfully") =
        Body.user true (some r) msg ∧
      UserController.getUserById (pathOf r.id)
          (UserController.createUser asciiLowerCase (Field.str " Cy ") (Field.str "Cy@Ex.com") sampleDb).2 =
        (Outcome.respond 200 (Body.user true (some r) none),
          (UserController.createUser asciiLowerCase (Field.str " Cy ") (Field.str "Cy@Ex.com") sampleDb).2.logged
            (Sql.selectById (some r.id))) :=
  create_then_get asciiLowerCase sampleDb (Field.str " Cy ") (Field.str "Cy@Ex.com") _ rfl (by decide)
    (by decide)

/-! ## Updating -/

theorem matchesId_updatedRow (db : Db) (k : Option Int) (name email : String) (x : UserRow) :
    matchesId k (if matchesId k x then db.updatedRow name email x else x) = matchesId k x := by
  cases h : matchesId k x <;> simp [h]
  simpa [matchesId, Db.updatedRow] using h

theorem filter_matchesId_map_updated {db : Db} {r : UserRow} (name email : String)
    (hnd : (db.rows.map (fun u => u.id)).Nodup) (hr : r ∈ db.rows) :
    ((db.rows.map (fun x =>
        if matchesId (some r.id) x then db.updatedRow name email x else x)).filter
      (matchesId (some r.id))).head? = some (db.updatedRow name email r) := by
  rw [List.filter_map]
  have hcomp : (matchesId (some r.id) ∘ fun x =>
      if matchesId (some r.id) x then db.updatedRow name email x else x) =
      matchesId (some r.id) := by
    funext x
    exact matchesId_updatedRow db (some r.id) name email x
  rw [hcomp, filter_matchesId_present hnd hr]
  simp [matchesId]

theorem head?_filter_email {rows : List UserRow} {em : String} {u : UserRow}
    (hnd : (rows.map (fun x => x.email)).Nodup) (hu : u ∈ rows) (hem : u.email = em) :
    (rows.filter (fun x => x.email == em)).head? = some u := by
  cases hh : (rows.filter (fun x => x.email == em)).head? with
  | none =>
      rw [List.head?_eq_none_iff, List.filter_eq_nil_iff] at hh
      exact absurd (by simpa using hem) (hh u hu)
  | some v =>
      have hv := List.mem_of_mem_head? hh
      rw [List.mem_filter] at hv
      have hve : v.email = em := by simpa using hv.2
      have : v = u := List.inj_on_of_nodup_map hnd hv.1 hu (by rw [hve, hem])
      rw [this]

/-- C4: for every lower-casing function, on a driver that does not fail, for an
update request with a numeric path id, a non-empty name and a valid e-mail, on
a table with unique ids and unique e-mails, `updateUser` decides in this
order, `parseInt(id)` being the id looked up: 404 `User not found` when no user has that id, the table unchanged;
otherwise 409 `Email already exists` exactly when a user with a different id
holds the trimmed lower-case e-mail; otherwise 200 with the row of that id
carrying the trimmed name and the normalised e-mail, that row replaced in
place and every other row unchanged.  An update that keeps the user's own
e-mail is not answered 409. -/
theorem updateUser_spec (toLowerCase : String → String) (db : Db) (id : String) (name email : Field)
    (hf : db.faults = []) (hid : isNaN id = false)
    (hn : name.truthy = true) (he : email.truthy = true)
    (hre : emailRegexTest email.text = true)
    (hids : (db.rows.map (fun u => u.id)).Nodup)
    (hemails : (db.rows.map (fun u => u.email)).Nodup) :
    ((∀ r ∈ db.rows, some r.id ≠ parseInt id) →
      UserController.updateUser toLowerCase id name email db =
        (Outcome.respond 404 (Body.notFound "User not found" (parseInt id)),
          db.logged (Sql.selectById (parseInt id)))) ∧
    (∀ r ∈ db.rows, parseInt id = some r.id →
      ((UserController.updateUser toLowerCase id name email db).1 =
          Outcome.respond 409 (Body.error "Email already exists") ↔
        ∃ u ∈ db.rows, u.email = trim (toLowerCase email.text) ∧ u.id ≠ r.id) ∧
      ((∃ u ∈ db.rows, u.email = trim (toLowerCase email.text) ∧ u.id ≠ r.id) →
        (UserController.updateUser toLowerCase id name email db).2.rows = db.rows) ∧
      ((¬∃ u ∈ db.rows, u.email = trim (toLowerCase email.text) ∧ u.id ≠ r.id) →
        UserController.updateUser toLowerCase id name email db =
          (Outcome.respond 200
            (Body.user true
              (some (db.updatedRow (trim name.text) (trim (toLowerCase email.text)) r))
              (some "User updated successfully")),
           { db with
             rows := db.rows.map (fun x =>
               if x.id = r.id then
                 db.updatedRow (trim name.text) (trim (toLowerCase email.text)) x
               else x),
             log := db.log ++ [Sql.selectById (some r.id),
               Sql.selectByEmail (trim (toLowerCase email.text)),
               Sql.updateUser (trim name.text) (trim (toLowerCase email.text)) (some r.id),
               Sql.selectById (some r.id)] })) ∧
      (r.email = trim (toLowerCase email.text) →
        (UserController.updateUser toLowerCase id name email db).1 ≠
          Outcome.respond 409 (Body.error "Email already exists"))) := by
  have hpre : UserController.updateUser toLowerCase id name email db =
      match User.findById (parseInt id) db with
      | (Except.error e, db1) => (Outcome.forward e, db1)
      | (Except.ok none, db1) =>
          (Outcome.respond 404 (Body.notFound "User not found" (parseInt id)), db1)
      | (Except.ok (some _), db1) =>
          match User.findByEmail (trim (toLowerCase email.text)) db1 with
          | (Except.error e, db2) => (Outcome.forward e, db2)
          | (Except.ok userWithEmail, db2) =>
              if userWithEmail.any (fun u => some u.id != parseInt id) then
                (Outcome.respond 409 (Body.error "Email already exists"), db2)
              else
                match User.update (parseInt id) (trim name.text)
                    (trim (toLowerCase email.text)) db2 with
                | (Except.error e, db3) => (Outcome.forward e, db3)
                | (Except.ok user, db3) =>
                    (Outcome.respond 200
                      (Body.user true user (some "User updated successfully")), db3) := by
    simp [UserController.updateUser, hid, hn, he, hre]
  constructor
  · intro habs
    rw [hpre, findById_eq _ hf, filter_matchesId_absent habs]
    rfl
  · intro r hr hk
    have hstep : UserController.updateUser toLowerCase id name email db =
        if ((db.rows.filter (fun x => x.email == trim (toLowerCase email.text))).head?).any
            (fun u => some u.id != some r.id) then
          (Outcome.respond 409 (Body.error "Email already exists"),
            (db.logged (Sql.selectById (some r.id))).logged
              (Sql.selectByEmail (trim (toLowerCase email.text))))
        else
          match User.update (some r.id) (trim name.text) (trim (toLowerCase email.text))
              ((db.logged (Sql.selectById (some r.id))).logged
                (Sql.selectByEmail (trim (toLowerCase email.text)))) with
          | (Except.error e, db3) => (Outcome.forward e, db3)
          | (Except.ok user, db3) =>
              (Outcome.respond 200
                (Body.user true user (some "User updated successfully")), db3) := by
      rw [hpre, hk, findById_eq _ hf, filter_matchesId_present hids hr]
      simp only [List.head?_cons]
      rw [findByEmail_eq _ (by exact hf)]
      rfl
    have hok : (¬∃ u ∈ db.rows, u.email = trim (toLowerCase email.text) ∧ u.id ≠ r.id) →
        UserController.updateUser toLowerCase id name email db =
          (Outcome.respond 200
            (Body.user true
              (some (db.updatedRow (trim name.text) (trim (toLowerCase email.text)) r))
              (some "User updated successfully")),
           { db with
             rows := db.rows.map (fun x =>
               if x.id = r.id then
                 db.updatedRow (trim name.text) (trim (toLowerCase email.text)) x
               else x),
             log := db.log ++ [Sql.selectById (some r.id),
               Sql.selectByEmail (trim (toLowerCase email.text)),
               Sql.updateUser (trim name.text) (trim (toLowerCase email.text)) (some r.id),
               Sql.selectById (some r.id)] }) := by
      intro hno
      have hany : ((db.rows.filter
          (fun x => x.email == trim (toLowerCase email.text))).head?).any
            (fun u => some u.id != some r.id) = false := by
        cases hh : (db.rows.filter (fun x => x.email == trim (toLowerCase email.text))).head? with
        | none => rfl
        | some u =>
            have hu := List.mem_of_mem_head? hh
            rw [List.mem_filter] at hu
            by_cases hur : u.id = r.id
            · simp [hur]
            · exact absurd ⟨u, hu.1, by simpa using hu.2, hur⟩ hno
      have hfilt : ¬ ((db.rows.filter (matchesId (some r.id))).isEmpty = true) := by
        rw [filter_matchesId_present hids hr]
        simp
      have hdup : db.rows.any (fun x => !(matchesId (some r.id) x) &&
          x.email == trim (toLowerCase email.text)) = false := by
        rw [List.any_eq_false]
        intro x hx hm
        simp only [matchesId, Bool.and_eq_true, Bool.not_eq_true', beq_eq_false_iff_ne, ne_eq,
          Option.some.injEq, beq_iff_eq] at hm
        exact hno ⟨x, hx, hm.2, fun h => hm.1 h.symm⟩
      have hmap : (fun x : UserRow =>
          if matchesId (some r.id) x then
            db.updatedRow (trim name.text) (trim (toLowerCase email.text)) x
          else x) =
          (fun x : UserRow =>
          if x.id = r.id then
            db.updatedRow (trim name.text) (trim (toLowerCase email.text)) x
          else x) := by
        funext x
        by_cases hx : x.id = r.id
        · simp [matchesId, hx]
        · have : ¬ r.id = x.id := fun h => hx h.symm
          simp [matchesId, hx, this]
      rw [hstep, hany]
      simp only [Bool.false_eq_true, if_false]
      rw [update_eq _ _ _ (by exact hf)]
      simp only [Db.logged_rows, Db.logged_updatedRow, if_neg hfilt, hdup, Bool.false_eq_true,
        if_false]
      rw [filter_matchesId_map_updated _ _ hids hr, hmap]
      simp [Db.logged]
    have hiff : (UserController.updateUser toLowerCase id name email db).1 =
          Outcome.respond 409 (Body.error "Email already exists") ↔
        ∃ u ∈ db.rows, u.email = trim (toLowerCase email.text) ∧ u.id ≠ r.id := by
      constructor
      · intro h409
        by_contra hno
        rw [hok hno] at h409
        simp at h409
      · rintro ⟨u, hu, hem, hne⟩
        rw [hstep, head?_filter_email hemails hu hem]
        simp [hne]
    refine ⟨hiff, ?_, hok, ?_⟩
    · rintro ⟨u, hu, hem, hne⟩
      rw [hstep, head?_filter_email hemails hu hem]
      simp [hne]
    · intro hown h409
      obtain ⟨u, hu, hem, hne⟩ := hiff.mp h409
      have : u = r := List.inj_on_of_nodup_map hemails hu hr (by rw [hem, hown])
      exact hne (by rw [this])

theorem updateUser_spec_witness :
    UserController.updateUser asciiLowerCase "7" (Field.str "Eve") (Field.str "eve@ex.com") sampleDb =
        (Outcome.respond 404 (Body.notFound "User not found" (some 7)),
          sampleDb.logged (Sql.selectById (some 7))) ∧
      ((UserController.updateUser asciiLowerCase "1" (Field.str "Ann") (Field.str "BOB@ex.com") sampleDb).1 =
          Outcome.respond 409 (Body.error "Email already exists") ↔
        ∃ u ∈ sampleDb.rows, u.email = "bob@ex.com" ∧ u.id ≠ annRow.id) ∧
      UserController.updateUser asciiLowerCase "1" (Field.str " Ann B ") (Field.str "ANN@ex.com") sampleDb =
        (Outcome.respond 200
          (Body.user true
            (some { id := 1, name := "Ann B", email := "ann@ex.com", created_at := 10,
                    updated_at := 30 })
            (some "User updated successfully")),
         { sampleDb with
           rows := [{ id := 1, name := "Ann B", email := "ann@ex.com", created_at := 10,
                      updated_at := 30 }, bobRow],
           log := [Sql.selectById (some 1), Sql.selectByEmail "ann@ex.com",
             Sql.updateUser "Ann B" "ann@ex.com" (some 1), Sql.selectById (some 1)] }) ∧
      (UserController.updateUser latin1LowerCase "1" (Field.str "Ann") (Field.str "ÉMILE@EX.com")
          accentDb).1 =
        Outcome.respond 409 (Body.error "Email already exists") :=
  ⟨(updateUser_spec asciiLowerCase sampleDb "7" (Field.str "Eve") (Field.str "eve@ex.com") rfl (by decide)
      (by decide) (by decide) (by decide) (by decide) (by decide)).1 (by decide),
   ((updateUser_spec asciiLowerCase sampleDb "1" (Field.str "Ann") (Field.str "BOB@ex.com") rfl (by decide)
      (by decide) (by decide) (by decide) (by decide) (by decide)).2 annRow (by decide)
      (by decide)).1,
   ((updateUser_spec asciiLowerCase sampleDb "1" (Field.str " Ann B ") (Field.str "ANN@ex.com") rfl (by decide)
      (by decide) (by decide) (by decide) (by decide) (by decide)).2 annRow (by decide)
      (by decide)).2.2.1 (by decide),
   ((updateUser_spec latin1LowerCase accentDb "1" (Field.str "Ann") (Field.str "ÉMILE@EX.com") rfl
      (by decide) (by decide) (by decide) (by decide) (by decide) (by decide)).2 annRow
      (by decide) (by decide)).1.mpr ⟨emileRow, by decide, by decide, by decide⟩⟩

/-! ## A deleted id stays absent -/

theorem retired_logged {db : Db} {i : Int} (h : db.Retired i) (sql : Sql) :
    (db.logged sql).Retired i := h

theorem retired_tick {db : Db} {i : Int} (h : db.Retired i) (dt : Nat) :
    (db.tick dt).Retired i := h

theorem retired_createUser {db : Db} {i : Int} (toLowerCase : String → String)
    (h : db.Retired i) (name email : Field) :
    (UserController.createUser toLowerCase name email db).2.Retired i := by
  by_cases hv : (!name.truthy || !email.truthy) = true
  · simpa [UserController.createUser, hv] using h
  by_cases hre : emailRegexTest email.text = true
  swap
  · simpa [UserController.createUser, hv, hre] using h
  have hn : name.truthy = true := by
    cases hh : name.truthy <;> simp [hh] at hv ⊢
  have he : email.truthy = true := by
    cases hh : email.truthy <;> simp [hh] at hv ⊢
  rw [createUser_eq toLowerCase _ _ h.1 hn he hre]
  by_cases h1 : ((db.rows.filter (fun r => r.email == email.text)).head?).isSome = true
  · rw [if_pos h1]
    exact retired_logged h _
  rw [if_neg h1, create_eq _ _ (by exact h.1)]
  by_cases h2 : ((db.logged (Sql.selectByEmail email.text)).rows.any
      (fun r => r.email == trim (toLowerCase email.text))) = true
  · rw [if_pos h2]
    exact retired_logged (retired_logged h _) _
  rw [if_neg h2]
  obtain ⟨hf, hlt, hi, hne⟩ := h
  refine ⟨hf, ?_, ?_, ?_⟩
  · intro r hr
    simp only [Db.logged_rows, Db.logged_nextId, Db.logged_newRow, List.mem_append,
      List.mem_singleton] at hr ⊢
    rcases hr with hr | rfl
    · have := hlt r hr
      omega
    · simp [Db.newRow]
  · simp only [Db.logged_nextId]
    omega
  · intro r hr
    simp only [Db.logged_rows, Db.logged_nextId, Db.logged_newRow, List.mem_append,
      List.mem_singleton] at hr
    rcases hr with hr | rfl
    · exact hne r hr
    · simp only [Db.newRow]
      omega

theorem retired_getUsers {db : Db} {i : Int} (h : db.Retired i) :
    (UserController.getUsers db).2.Retired i := by
  have hf1 : (db.logged Sql.selectAll).faults = [] := h.1
  simp only [UserController.getUsers, findAll_eq h.1, count_eq hf1]
  exact retired_logged (retired_logged h _) _

theorem retired_getUserById {db : Db} {i : Int} (h : db.Retired i) (id : String) :
    (UserController.getUserById id db).2.Retired i := by
  unfold UserController.getUserById
  rw [findById_eq _ h.1]
  split
  · exact h
  · cases (db.rows.filter (matchesId (parseInt id))).head? <;> exact retired_logged h _

theorem retired_deleteUser {db : Db} {i : Int} (h : db.Retired i) (id : String) :
    (UserController.deleteUser id db).2.Retired i := by
  unfold UserController.deleteUser
  rw [delete_eq _ h.1]
  split
  · exact h
  · cases (db.rows.filter (matchesId (parseInt id))).head? with
    | none => exact retired_logged h _
    | some u =>
        obtain ⟨hf, hlt, hi, hne⟩ := h
        refine ⟨hf, ?_, hi, ?_⟩
        · intro r hr
          exact hlt r (List.mem_filter.mp hr).1
        · intro r hr
          exact hne r (List.mem_filter.mp hr).1

theorem retired_updateUser {db : Db} {i : Int} (toLowerCase : String → String)
    (h : db.Retired i) (id : String)
    (name email : Field) : (UserController.updateUser toLowerCase id name email db).2.Retired i := by
  unfold UserController.updateUser
  split
  · exact h
  split
  · exact h
  split
  · exact h
  rw [findById_eq _ h.1]
  cases (db.rows.filter (matchesId (parseInt id))).head? with
  | none => exact retired_logged h _
  | some u =>
      simp only []
      rw [findByEmail_eq _ (by exact h.1)]
      simp only []
      split
      · exact retired_logged (retired_logged h _) _
      · rw [update_eq _ _ _ (by exact h.1)]
        split_ifs
        · exact retired_logged (retired_logged (retired_logged h _) _) _
        · exact retired_logged (retired_logged (retired_logged h _) _) _
        · obtain ⟨hf, hlt, hi, hne⟩ := h
          have hid : ∀ x : UserRow,
              (if matchesId (parseInt id) x then
                db.updatedRow (trim name.text) (trim (toLowerCase email.text)) x
               else x).id = x.id := by
            intro x
            split <;> rfl
          refine ⟨hf, ?_, hi, ?_⟩
          · intro r hr
            simp only [Db.logged_rows, Db.logged_updatedRow, List.mem_map] at hr
            obtain ⟨x, hx, rfl⟩ := hr
            rw [hid]
            exact hlt x hx
          · intro r hr
            simp only [Db.logged_rows, Db.logged_updatedRow, List.mem_map] at hr
            obtain ⟨x, hx, rfl⟩ := hr
            rw [hid]
            exact hne x hx

theorem retired_handle {db : Db} {i : Int} (toLowerCase : String → String)
    (h : db.Retired i) (req : Request) :
    (handle toLowerCase req db).2.Retired i := by
  cases req with
  | post name email => exact retired_createUser toLowerCase h name email
  | getAll => exact retired_getUsers h
  | get id => exact retired_getUserById h id
  | put id name email => exact retired_updateUser toLowerCase h id name email
  | delete id => exact retired_deleteUser h id

theorem retired_run {db : Db} {i : Int} (toLowerCase : String → String)
    (h : db.Retired i) (reqs : List (Nat × Request)) :
    (run toLowerCase reqs db).Retired i := by
  induction reqs generalizing db with
  | nil => exact h
  | cons x rest ih => exact ih (retired_handle toLowerCase (retired_tick h x.1) x.2)

/-- C8: on a driver that does not fail and a table whose stored ids are all
below the `AUTO_INCREMENT` counter (so every insert gets an id never used
before): once `deleteUser` on a path id has answered 200, after every finite
sequence of further create, list, get, update and delete requests, with any
time passing between them, `getUserById` and `deleteUser` on a numeric path
that parses to the same id both answer 404 `User not found`. -/
theorem deleted_id_stays_absent (toLowerCase : String → String)
    (db : Db) (p q : String) (body : Body)
    (reqs : List (Nat × Request))
    (hf : db.faults = []) (hfresh : ∀ r ∈ db.rows, r.id < db.nextId)
    (hdel : (UserController.deleteUser p db).1 = Outcome.respond 200 body)
    (hq : isNaN q = false) (hpq : parseInt q = parseInt p) :
    (UserController.getUserById q (run toLowerCase reqs (UserController.deleteUser p db).2)).1 =
        Outcome.respond 404 (Body.notFound "User not found" (parseInt q)) ∧
      (UserController.deleteUser q (run toLowerCase reqs (UserController.deleteUser p db).2)).1 =
        Outcome.respond 404 (Body.notFound "User not found" (parseInt q)) := by
  have hret : ∃ i, parseInt p = some i ∧ (UserController.deleteUser p db).2.Retired i := by
    unfold UserController.deleteUser at hdel ⊢
    by_cases hp : isNaN p = true
    · rw [if_pos hp] at hdel
      simp at hdel
    rw [if_neg hp, delete_eq _ hf] at hdel ⊢
    cases hh : (db.rows.filter (matchesId (parseInt p))).head? with
    | none =>
        rw [hh] at hdel
        simp at hdel
    | some u =>
        have hu := List.mem_of_mem_head? hh
        rw [List.mem_filter] at hu
        have hk : parseInt p = some u.id := by
          simpa [matchesId] using hu.2
        refine ⟨u.id, hk, hf, ?_, hfresh u hu.1, ?_⟩
        · intro r hr
          exact hfresh r (List.mem_filter.mp hr).1
        · intro r hr heq
          have hm := (List.mem_filter.mp hr).2
          simp [matchesId, hk, heq] at hm
  obtain ⟨i, hi, hret⟩ := hret
  have hrun := retired_run toLowerCase hret reqs
  have habs : ∀ r ∈ (run toLowerCase reqs (UserController.deleteUser p db).2).rows,
      some r.id ≠ parseInt q := by
    intro r hr heq
    rw [hpq, hi] at heq
    exact hrun.2.2.2 r hr (by simpa using heq)
  generalize run toLowerCase reqs (UserController.deleteUser p db).2 = db2 at hrun habs
  constructor
  · simp [UserController.getUserById, hq, findById_eq _ hrun.1, filter_matchesId_absent habs]
  · simp [UserController.deleteUser, hq, delete_eq _ hrun.1, filter_matchesId_absent habs]

theorem deleted_id_stays_absent_witness :
    (UserController.getUserById "1"
        (run asciiLowerCase [(5, Request.post (Field.str "Cy") (Field.str "cy@ex.com")),
              (1, Request.get "1"),
              (2, Request.put "2" (Field.str "Bob") (Field.str "ann@ex.com")),
              (0, Request.delete "1"),
              (3, Request.getAll)]
          (UserController.deleteUser "1" sampleDb).2)).1 =
        Outcome.respond 404 (Body.notFound "User not found" (parseInt "1")) ∧
      (UserController.deleteUser "1"
        (run asciiLowerCase [(5, Request.post (Field.str "Cy") (Field.str "cy@ex.com")),
              (1, Request.get "1"),
              (2, Request.put "2" (Field.str "Bob") (Field.str "ann@ex.com")),
              (0, Request.delete "1"),
              (3, Request.getAll)]
          (UserController.deleteUser "1" sampleDb).2)).1 =
        Outcome.respond 404 (Body.notFound "User not found" (parseInt "1")) :=
  deleted_id_stays_absent asciiLowerCase sampleDb "1" "1"
    (Body.deleted true "User deleted successfully" (some 1)) _ rfl (by decide) (by decide)
    (by decide) rfl

/-! ## The error middleware -/

theorem afterSwitch_code (nodeEnv : Option String) (t1 : String) (err : JsError) (req : Req)
    (code : Option String) :
    afterSwitch nodeEnv t1 { err with code := code } req = afterSwitch nodeEnv t1 err req := rfl

theorem switchCode_eq_none {c : String} (h : c ∉ recognizedCodes) : switchCode c = none := by
  simp only [recognizedCodes, List.mem_cons, List.mem_singleton, List.not_mem_nil, or_false,
    not_or] at h
  obtain ⟨h1, h2, h3, h4, h5, h6⟩ := h
  simp [switchCode, h1, h2, h3, h4, h5, h6]

theorem truthyString_some {c : String} (h : c ≠ "") : truthyString (some c) = true := by
  cases hd : c.data with
  | nil =>
      exfalso
      apply h
      cases c
      simp_all
  | cons x xs => simp [truthyString, hd]

theorem errorHandler_switch_some (nodeEnv : Option String) (t0 t1 : String) (err : JsError)
    (req : Req) {c : String} {r : ErrorResponse} (hc : err.code = some c)
    (hs : switchCode c = some r) : (errorHandler nodeEnv t0 t1 err req).2 = r := by
  have hne : c ≠ "" := by
    rintro rfl
    simp [switchCode] at hs
  simp [errorHandler, hc, truthyString_some hne, hs]

/-- C11: whatever the other fields of the error, the request, the environment
and the clock are, an error whose `code` is one of the six recognized storage
codes is answered with the fixed status and the two fixed strings of that
code: `ER_DUP_ENTRY` 409, `ER_BAD_NULL_ERROR` 400, `ER_NO_REFERENCED_ROW_2` 400,
`ER_BAD_FIELD_ERROR` 400, `ECONNREFUSED` 503, `ER_ACCESS_DENIED_ERROR` 503; and
an error with any other non-empty code gets the response of the same error
without a code. -/
theorem errorHandler_storage_codes (nodeEnv : Option String) (t0 t1 : String) (err : JsError)
    (req : Req) :
    (err.code = some "ER_DUP_ENTRY" →
      (errorHandler nodeEnv t0 t1 err req).2 =
        fixedResponse 409 "Resource already exists" "Duplicate entry detected") ∧
    (err.code = some "ER_BAD_NULL_ERROR" →
      (errorHandler nodeEnv t0 t1 err req).2 =
        fixedResponse 400 "Missing required field" "A required field is missing") ∧
    (err.code = some "ER_NO_REFERENCED_ROW_2" →
      (errorHandler nodeEnv t0 t1 err req).2 =
        fixedResponse 400 "Invalid reference" "Referenced resource does not exist") ∧
    (err.code = some "ER_BAD_FIELD_ERROR" →
      (errorHandler nodeEnv t0 t1 err req).2 =
        fixedResponse 400 "Invalid field" "Unknown column in field list") ∧
    (err.code = some "ECONNREFUSED" →
      (errorHandler nodeEnv t0 t1 err req).2 =
        fixedResponse 503 "Database connection failed" "Unable to connect to the database") ∧
    (err.code = some "ER_ACCESS_DENIED_ERROR" →
      (errorHandler nodeEnv t0 t1 err req).2 =
        fixedResponse 503 "Database access denied" "Invalid database credentials") ∧
    (∀ c, err.code = some c → c ≠ "" → c ∉ recognizedCodes →
      (errorHandler nodeEnv t0 t1 err req).2 =
        (errorHandler nodeEnv t0 t1 { err with code := none } req).2) := by
  refine ⟨?_, ?_, ?_, ?_, ?_, ?_, ?_⟩
  · intro h
    simp [errorHandler, h, truthyString, switchCode]
  · intro h
    simp [errorHandler, h, truthyString, switchCode]
  · intro h
    simp [errorHandler, h, truthyString, switchCode]
  · intro h
    simp [errorHandler, h, truthyString, switchCode]
  · intro h
    simp [errorHandler, h, truthyString, switchCode]
  · intro h
    simp [errorHandler, h, truthyString, switchCode]
  · intro c hc hne hnot
    have h2 : truthyString (none : Option String) = false := rfl
    simp only [errorHandler, hc, truthyString_some hne, if_true, Option.getD_some,
      switchCode_eq_none hnot, h2, Bool.false_eq_true, if_false]
    exact (afterSwitch_code nodeEnv t1 err req none).symm

theorem errorHandler_storage_codes_witness :
    (errorHandler (some "production") "t0" "t1"
        { gatewayError with code := some "ECONNREFUSED" } sampleReq).2 =
      fixedResponse 503 "Database connection failed" "Unable to connect to the database" ∧
    (errorHandler (some "production") "t0" "t1"
        { gatewayError with code := some "EPIPE" } sampleReq).2 =
      (errorHandler (some "production") "t0" "t1" gatewayError sampleReq).2 :=
  ⟨(errorHandler_storage_codes (some "production") "t0" "t1"
      { gatewayError with code := some "ECONNREFUSED" } sampleReq).2.2.2.2.1 rfl,
   (errorHandler_storage_codes (some "production") "t0" "t1"
      { gatewayError with code := some "EPIPE" } sampleReq).2.2.2.2.2.2 "EPIPE" rfl
      (by decide) (by decide)⟩

/-- C12 (counterexample): outside development mode, an error that carries the
status 503 itself and no recognized code is answered 503, a status of the 500
class, with the error's own message as the `error` field of the body. -/
theorem errorHandler_message_in_503_body :
    (some "production" : Option String) ≠ some "development" ∧
      (errorHandler (some "production") "t0" "t1" gatewayError sampleReq).2.status = 503 ∧
      gatewayError.message = some "connect ETIMEDOUT 10.0.0.5:3306" ∧
      (errorHandler (some "production") "t0" "t1" gatewayError sampleReq).2.body.error =
        "connect ETIMEDOUT 10.0.0.5:3306" := by
  decide

/-- C12 (amended): outside development mode, when the response status is 500,
or the error has one of the two recognized codes answered 503, the status is
in the 500 class and the whole response is the same whatever the message of
the error is: no field of the body is taken from the message. -/
theorem errorHandler_masks_message (nodeEnv : Option String) (t0 t1 : String) (err : JsError)
    (req : Req) (hdev : nodeEnv ≠ some "development")
    (hsrc : (errorHandler nodeEnv t0 t1 err req).2.status = 500 ∨
      err.code = some "ECONNREFUSED" ∨ err.code = some "ER_ACCESS_DENIED_ERROR") :
    500 ≤ (errorHandler nodeEnv t0 t1 err req).2.status ∧
      (errorHandler nodeEnv t0 t1 err req).2.status ≤ 599 ∧
      ∀ m, (errorHandler nodeEnv t0 t1 { err with message := m } req).2 =
        (errorHandler nodeEnv t0 t1 err req).2 := by
  rcases hsrc with h500 | hc | hc
  · refine ⟨by omega, by omega, ?_⟩
    intro m
    have hafter : (afterSwitch nodeEnv t1 err req).status = 500 →
        afterSwitch nodeEnv t1 { err with message := m } req = afterSwitch nodeEnv t1 err req := by
      unfold afterSwitch
      simp only []
      split_ifs <;> simp_all [fixedResponse]
    unfold errorHandler at h500 ⊢
    simp only []  at h500 ⊢
    split_ifs at h500 ⊢ with hcode
    · cases hsw : switchCode (err.code.getD "") with
      | some r => simp
      | none =>
          rw [hsw] at h500
          simp only [] at h500 ⊢
          exact hafter h500
    · exact hafter h500
  · have hs : switchCode "ECONNREFUSED" = some (fixedResponse 503 "Database connection failed"
        "Unable to connect to the database") := by decide
    rw [errorHandler_switch_some nodeEnv t0 t1 err req hc hs]
    refine ⟨by decide, by decide, ?_⟩
    intro m
    exact errorHandler_switch_some nodeEnv t0 t1 { err with message := m } req hc hs
  · have hs : switchCode "ER_ACCESS_DENIED_ERROR" = some (fixedResponse 503
        "Database access denied" "Invalid database credentials") := by decide
    rw [errorHandler_switch_some nodeEnv t0 t1 err req hc hs]
    refine ⟨by decide, by decide, ?_⟩
    intro m
    exact errorHandler_switch_some nodeEnv t0 t1 { err with message := m } req hc hs

theorem errorHandler_masks_message_witness :
    500 ≤ (errorHandler (some "production") "t0" "t1"
        { gatewayError with status := none } sampleReq).2.status ∧
      (errorHandler (some "production") "t0" "t1"
        { gatewayError with status := none } sampleReq).2.status ≤ 599 ∧
      ∀ m, (errorHandler (some "production") "t0" "t1"
          { { gatewayError with status := none } with message := m } sampleReq).2 =
        (errorHandler (some "production") "t0" "t1"
          { gatewayError with status := none } sampleReq).2 :=
  errorHandler_masks_message (some "production") "t0" "t1" { gatewayError with status := none }
    sampleReq (by decide) (Or.inl (by decide))

/-- C13 (counterexample): the response to a duplicate-entry error has neither
a `timestamp` nor a `path` field. -/
theorem errorHandler_dup_entry_no_path :
    (errorHandler (some "production") "t0" "t1" erDupEntry sampleReq).2.body.timestamp = none ∧
      (errorHandler (some "production") "t0" "t1" erDupEntry sampleReq).2.body.path = none := by
  decide

/-- C13 (amended): when the error has no recognized storage code and its
`type` is neither `entity.parse.failed` nor `entity.too.large`, the body of
the response has a `timestamp` field, the clock reading taken for the
response, and a `path` field equal to `req.url`; in the other branches (a
recognized code, a body parse failure, a payload that is too large) the body
has neither. -/
theorem errorHandler_timestamp_and_path (nodeEnv : Option String) (t0 t1 : String)
    (err : JsError) (req : Req) :
    ((∀ c, err.code = some c → c ∉ recognizedCodes) →
      err.type ≠ some "entity.parse.failed" → err.type ≠ some "entity.too.large" →
      (errorHandler nodeEnv t0 t1 err req).2.body.timestamp = some t1 ∧
        (errorHandler nodeEnv t0 t1 err req).2.body.path = some req.url) ∧
    ((∃ c ∈ recognizedCodes, err.code = some c) ∨ err.type = some "entity.parse.failed" ∨
        err.type = some "entity.too.large" →
      (errorHandler nodeEnv t0 t1 err req).2.body.timestamp = none ∧
        (errorHandler nodeEnv t0 t1 err req).2.body.path = none) := by
  have hfixed : ∀ c r, switchCode c = some r → r.body.timestamp = none ∧ r.body.path = none := by
    intro c r h
    unfold switchCode at h
    split_ifs at h <;> simp at h <;> subst h <;> exact ⟨rfl, rfl⟩
  constructor
  · intro hcode ht1 ht2
    have hafter : (afterSwitch nodeEnv t1 err req).body.timestamp = some t1 ∧
        (afterSwitch nodeEnv t1 err req).body.path = some req.url := by
      simp [afterSwitch, ht1, ht2]
    unfold errorHandler
    simp only []
    split_ifs with htr
    · cases hc : err.code with
      | none => simp [hc, truthyString] at htr
      | some c =>
          rw [Option.getD_some, switchCode_eq_none (hcode c hc)]
          exact hafter
    · exact hafter
  · intro h
    have hafter : err.type = some "entity.parse.failed" ∨ err.type = some "entity.too.large" →
        (afterSwitch nodeEnv t1 err req).body.timestamp = none ∧
          (afterSwitch nodeEnv t1 err req).body.path = none := by
      intro ht
      rcases ht with ht | ht <;> simp [afterSwitch, ht, fixedResponse]
    rcases h with ⟨c, hmem, hc⟩ | ht
    · have hsome : ∃ r, switchCode c = some r := by
        simp only [recognizedCodes, List.mem_cons, List.mem_singleton, List.not_mem_nil,
          or_false] at hmem
        rcases hmem with rfl | rfl | rfl | rfl | rfl | rfl <;>
          exact Option.isSome_iff_exists.mp (by decide)
      obtain ⟨r, hr⟩ := hsome
      rw [errorHandler_switch_some nodeEnv t0 t1 err req hc hr]
      exact hfixed c r hr
    · unfold errorHandler
      simp only []
      split_ifs with htr
      · cases hsw : switchCode (err.code.getD "") with
        | some r => exact hfixed _ r hsw
        | none => exact hafter ht
      · exact hafter ht

theorem errorHandler_timestamp_and_path_witness :
    ((errorHandler (some "production") "t0" "t1" gatewayError sampleReq).2.body.timestamp =
        some "t1" ∧
      (errorHandler (some "production") "t0" "t1" gatewayError sampleReq).2.body.path =
        some "/api/users") ∧
    ((errorHandler (some "production") "t0" "t1"
        { gatewayError with type := some "entity.too.large" } sampleReq).2.body.timestamp = none ∧
      (errorHandler (some "production") "t0" "t1"
        { gatewayError with type := some "entity.too.large" } sampleReq).2.body.path = none) :=
  ⟨(errorHandler_timestamp_and_path (some "production") "t0" "t1" gatewayError sampleReq).1
      (by decide) (by decide) (by decide),
   (errorHandler_timestamp_and_path (some "production") "t0" "t1"
      { gatewayError with type := some "entity.too.large" } sampleReq).2
      (Or.inr (Or.inr rfl))⟩

/-! ## The name handed to the repository -/

theorem head?_dropWhile_isWhiteSpace (cs : List Char) (c : Char)
    (h : (cs.dropWhile isWhiteSpace).head? = some c) : isWhiteSpace c = false := by
  induction cs with
  | nil => simp at h
  | cons x xs ih =>
      by_cases hx : isWhiteSpace x = true
      · rw [List.dropWhile_cons_of_pos hx] at h
        exact ih h
      · rw [List.dropWhile_cons_of_neg hx] at h
        simp only [List.head?_cons, Option.some.injEq] at h
        rw [← h]
        simpa using hx

/-- The result of `trim` neither starts nor ends with a white-space character. -/
theorem trim_no_edge_space (s : String) (c : Char) :
    ((trim s).data.head? = some c → isWhiteSpace c = false) ∧
      ((trim s).data.getLast? = some c → isWhiteSpace c = false) := by
  constructor
  · intro h
    have hpre : trimEnd (trimStart s.data) <+: trimStart s.data := by
      unfold trimEnd
      rw [← List.reverse_suffix, List.reverse_reverse]
      exact List.dropWhile_suffix _
    obtain ⟨t, ht⟩ := hpre
    have h2 : (trimStart s.data).head? = some c := by
      rw [← ht]
      simp only [trim] at h
      cases hd : trimEnd (trimStart s.data) with
      | nil => rw [hd] at h; simp at h
      | cons y ys => rw [hd] at h; simpa using h
    exact head?_dropWhile_isWhiteSpace _ c h2
  · intro h
    simp only [trim, trimEnd, List.getLast?_reverse] at h
    exact head?_dropWhile_isWhiteSpace _ c h

/-- C14 (evaluation at the failing input): a create request whose name is three
spaces passes the check of the required fields, and `User.create` is called
with the empty string as name: the `INSERT` logged has the name `""`, the
answer is 201, and the stored row has an empty name.  An update request with
a blank name likewise writes the empty name to the row. -/
theorem createUser_blank_name_stored :
    (Field.str "   ").truthy = true ∧
      UserController.createUser asciiLowerCase (Field.str "   ") (Field.str "a@b.co") emptyDb =
        (Outcome.respond 201
          (Body.user true
            (some { id := 1, name := "", email := "a@b.co", created_at := 100,
                    updated_at := 100 })
            (some "User created successfully")),
         { emptyDb with
           rows := [{ id := 1, name := "", email := "a@b.co", created_at := 100,
                      updated_at := 100 }],
           nextId := 2,
           log := [Sql.selectByEmail "a@b.co", Sql.insertUser "" "a@b.co",
             Sql.selectById (some 1)] }) ∧
      (UserController.updateUser asciiLowerCase "1" (Field.str " ") (Field.str "ann@ex.com") sampleDb).2.rows =
        [{ annRow with name := "", updated_at := 30 }, bobRow] ∧
      Sql.updateUser "" "ann@ex.com" (some 1) ∈
        (UserController.updateUser asciiLowerCase "1" (Field.str " ") (Field.str "ann@ex.com") sampleDb).2.log := by
  decide

/-! ## The numeric check and the number looked up -/

/-- The numeric check `isNaN(id)` rejects exactly the strings that `Number`
converts to `NaN`. -/
theorem toNumber_eq_nan_iff (id : String) : toNumber id = NumericValue.nan ↔ isNaN id = true := by
  unfold toNumber isNaN
  simp only []
  by_cases h1 : (trimEnd (trimStart id.data)).isEmpty = true
  · simp [h1]
  · by_cases h2 : isStrNumericLiteral (trimEnd (trimStart id.data)) = true
    · simp only [h1, h2, Bool.not_true, Bool.false_eq_true, if_false, Bool.or_true]
      constructor
      · intro h
        split_ifs at h
        · simp [nonDecimalValue] at h
        · unfold decimalValue at h
          simp only [] at h
          split_ifs at h
      · intro h
        cases h
    · simp [h1, h2]

theorem decimalValue_of_digits {c : Char} {cs : List Char}
    (h : ∀ x ∈ c :: cs, isDecimalDigit x = true) :
    decimalValue (c :: cs) = NumericValue.finite (digitsValue 10 (c :: cs) : Int) 0 := by
  have hc : isDecimalDigit c = true := h c (by simp)
  have h1 : c ≠ '-' := by
    rintro rfl
    exact absurd hc (by decide)
  have hI : c :: cs ≠ "Infinity".data := by
    intro heq
    have : c = 'I' := by
      have := congrArg List.head? heq
      simpa using this
    rw [this] at hc
    exact absurd hc (by decide)
  have ht : (c :: cs).takeWhile isDecimalDigit = c :: cs := List.takeWhile_eq_self_iff.mpr h
  have hd : (c :: cs).dropWhile isDecimalDigit = [] := List.dropWhile_eq_nil_iff.mpr h
  unfold decimalValue
  simp only [dropSign_of_digit hc, if_neg hI, ht, hd]
  simp [h1]

theorem decimalValue_of_minus_digits {c : Char} {cs : List Char}
    (h : ∀ x ∈ c :: cs, isDecimalDigit x = true) :
    decimalValue ('-' :: c :: cs) = NumericValue.finite (-(digitsValue 10 (c :: cs) : Int)) 0 := by
  have hc : isDecimalDigit c = true := h c (by simp)
  have hI : c :: cs ≠ "Infinity".data := by
    intro heq
    have : c = 'I' := by
      have := congrArg List.head? heq
      simpa using this
    rw [this] at hc
    exact absurd hc (by decide)
  have hs : dropSign ('-' :: c :: cs) = c :: cs := by simp [dropSign]
  have ht : (c :: cs).takeWhile isDecimalDigit = c :: cs := List.takeWhile_eq_self_iff.mpr h
  have hd : (c :: cs).dropWhile isDecimalDigit = [] := List.dropWhile_eq_nil_iff.mpr h
  unfold decimalValue
  simp only [hs, if_neg hI, ht, hd]
  simp

/-- On the decimal path segment of an id within the exactly representable
integers the two readings agree: `Number` gives the id, and so does
`parseInt`. -/
theorem pathOf_value (z : Int) (hz : z.natAbs < 2 ^ 53) :
    toNumber (pathOf z) = NumericValue.finite z 0 ∧ parseInt (pathOf z) = some z := by
  refine ⟨?_, (pathOf_numeric z hz).2⟩
  have hdig := decimalAux_digits (z.natAbs + 1) z.natAbs
  have hval := decimalAux_value (z.natAbs + 1) z.natAbs (Nat.lt_succ_self _)
  have hne := decimalAux_ne_nil z.natAbs z.natAbs
  cases hd : decimalAux (z.natAbs + 1) z.natAbs [] with
  | nil => exact absurd hd hne
  | cons c cs =>
      rw [hd] at hdig hval
      have hc : isDecimalDigit c = true := hdig c (by simp)
      have hv : digitsValue 10 (c :: cs) = z.natAbs := hval
      unfold pathOf decimal
      by_cases hneg : z < 0
      · rw [if_pos hneg, hd]
        have hall : ∀ x ∈ '-' :: c :: cs, isWhiteSpace x = false := by
          intro x hx
          rcases List.mem_cons.mp hx with rfl | hx
          · decide
          · exact isDecimalDigit_not_space (hdig x hx)
        have hend : trimEnd ('-' :: c :: cs) = '-' :: c :: cs := by
          unfold trimEnd
          cases hr : ('-' :: c :: cs).reverse with
          | nil => simp at hr
          | cons d ds =>
              have hdm : d ∈ '-' :: c :: cs := by
                rw [← List.mem_reverse, hr]
                exact List.mem_cons_self d ds
              rw [trimStart_of_head (hall d hdm), ← hr, List.reverse_reverse]
        have hs : dropSign ('-' :: c :: cs) = c :: cs := by simp [dropSign]
        have hnd : isNonDecimal ('-' :: c :: cs) = false := by simp [isNonDecimal]
        have hlit : isStrNumericLiteral ('-' :: c :: cs) = true := by
          simp [isStrNumericLiteral, hs, isUnsignedDecimal_of_digits hdig]
        simp only [toNumber, trimStart_of_head (by decide : isWhiteSpace '-' = false), hend,
          hlit, hnd, decimalValue_of_minus_digits hdig, hv]
        simp only [List.isEmpty_cons, Bool.false_eq_true, if_false, Bool.not_true,
          NumericValue.finite.injEq, and_true]
        omega
      · rw [if_neg hneg, hd]
        have hlit : isStrNumericLiteral (c :: cs) = true := by
          simp [isStrNumericLiteral, dropSign_of_digit hc, isUnsignedDecimal_of_digits hdig]
        simp only [toNumber, trimStart_of_head (isDecimalDigit_not_space hc),
          trimEnd_of_digits hdig, hlit, isNonDecimal_of_digits hdig,
          decimalValue_of_digits hdig, hv]
        simp only [List.isEmpty_cons, Bool.false_eq_true, if_false, Bool.not_true,
          NumericValue.finite.injEq, and_true]
        omega

/-- C16 (evaluation at the failing inputs): the path ids `1e3`, `1.5` and the
blank string all pass the numeric check; `1e3` has the numeric value 1000 and
`1.5` the value 15 × 10^(-1), yet `parseInt` hands the id 1 to the repository for
both, so `getUserById` on `1e3` answers 200 with the user of id 1 and
`deleteUser` on `1.5` removes the user of id 1; the blank string has the value 0
and `parseInt` gives `NaN`. -/
theorem path_id_looked_up_under_other_number :
    isNaN "1e3" = false ∧ (toNumber "1e3").isInt 1000 = true ∧ parseInt "1e3" = some 1 ∧
      (UserController.getUserById "1e3" sampleDb).1 =
        Outcome.respond 200 (Body.user true (some annRow) none) ∧
      isNaN "1.5" = false ∧ toNumber "1.5" = NumericValue.finite 15 (-1) ∧
      parseInt "1.5" = some 1 ∧
      (UserController.deleteUser "1.5" sampleDb).2.rows = [bobRow] ∧
      isNaN " " = false ∧ toNumber " " = NumericValue.finite 0 0 ∧ parseInt " " = none := by
  decide

/-! ## One response or one call of `next` -/

theorem pending_await {σ α : Type} (op : σ → Except JsError α × σ) :
    (Handler.await op).Pending := by
  intro w
  unfold Handler.await
  rcases op w.store with ⟨r, s1⟩
  cases r <;> rfl

theorem pending_ifThen_returnJson {σ : Type} (cond : Bool) (status : Nat) (body : Body) :
    (Handler.ifThen (σ := σ) cond (Handler.returnJson status body)).Pending := by
  intro w
  cases cond
  · rfl
  · exact ⟨status, body, rfl⟩

theorem answers_json {σ : Type} (status : Nat) (body : Body) :
    (Handler.json (σ := σ) status body).Answers := by
  intro w
  exact ⟨status, body, rfl⟩

theorem pending_bind {σ α β : Type} {m : Handler σ α} {f : α → Handler σ β}
    (hm : m.Pending) (hf : ∀ a, (f a).Pending) : (m >>= f).Pending := by
  intro w
  have h1 := hm w
  show match Handler.bind m f w with
    | (Completion.returned, w1) => ∃ status body, w1.effects = w.effects ++ [Effect.json status body]
    | (_, w1) => w1.effects = w.effects
  unfold Handler.bind
  rcases hmw : m w with ⟨c, w1⟩
  rw [hmw] at h1
  cases c with
  | normal a =>
      simp only [] at h1 ⊢
      have h2 := hf a w1
      rcases hfa : f a w1 with ⟨c2, w2⟩
      rw [hfa] at h2
      cases c2 <;> simp only [] at h2 ⊢ <;> rw [h1] at h2 <;> exact h2
  | returned => exact h1
  | thrown e => exact h1

theorem answers_bind {σ α β : Type} {m : Handler σ α} {f : α → Handler σ β}
    (hm : m.Pending) (hf : ∀ a, (f a).Answers) : (m >>= f).Answers := by
  intro w
  have h1 := hm w
  show match Handler.bind m f w with
    | (Completion.thrown _, w1) => w1.effects = w.effects
    | (_, w1) => ∃ status body, w1.effects = w.effects ++ [Effect.json status body]
  unfold Handler.bind
  rcases hmw : m w with ⟨c, w1⟩
  rw [hmw] at h1
  cases c with
  | normal a =>
      simp only [] at h1 ⊢
      have h2 := hf a w1
      rcases hfa : f a w1 with ⟨c2, w2⟩
      rw [hfa] at h2
      cases c2 <;> simp only [] at h2 ⊢ <;> rw [h1] at h2 <;> exact h2
  | returned => exact h1
  | thrown e => exact h1

theorem answers_tryBlock {σ : Type} (toLowerCase : String → String)
    (repo : Repository σ) (req : Request) :
    (Async.tryBlock toLowerCase repo req).Answers := by
  cases req with
  | post name email =>
      exact answers_bind (pending_ifThen_returnJson _ _ _) fun _ =>
        answers_bind (pending_ifThen_returnJson _ _ _) fun _ =>
        answers_bind (pending_await _) fun _ =>
        answers_bind (pending_ifThen_returnJson _ _ _) fun _ =>
        answers_bind (pending_await _) fun _ => answers_json _ _
  | getAll =>
      exact answers_bind (pending_await _) fun _ =>
        answers_bind (pending_await _) fun _ => answers_json _ _
  | get id =>
      exact answers_bind (pending_ifThen_returnJson _ _ _) fun _ =>
        answers_bind (pending_await _) fun _ =>
        answers_bind (pending_ifThen_returnJson _ _ _) fun _ => answers_json _ _
  | put id name email =>
      exact answers_bind (pending_ifThen_returnJson _ _ _) fun _ =>
        answers_bind (pending_ifThen_returnJson _ _ _) fun _ =>
        answers_bind (pending_ifThen_returnJson _ _ _) fun _ =>
        answers_bind (pending_await _) fun _ =>
        answers_bind (pending_ifThen_returnJson _ _ _) fun _ =>
        answers_bind (pending_await _) fun _ =>
        answers_bind (pending_ifThen_returnJson _ _ _) fun _ =>
        answers_bind (pending_await _) fun _ => answers_json _ _
  | delete id =>
      exact answers_bind (pending_ifThen_returnJson _ _ _) fun _ =>
        answers_bind (pending_await _) fun _ =>
        answers_bind (pending_ifThen_returnJson _ _ _) fun _ => answers_json _ _

/-- C15: for each of the five handlers, every request, every repository (any
seven operations on any state, each free to be rejected with any error at any
call) and every starting state, the handler as a whole never throws, and
either its `try` block does not throw and exactly one response is written and
`next` is not called, or the `try` block throws an error and the handler calls
`next` exactly once, with that same error, and writes no response. -/
theorem handler_responds_or_forwards {σ : Type} (toLowerCase : String → String)
    (repo : Repository σ) (req : Request)
    (w : World σ) :
    (Async.handle toLowerCase repo req w).1.isThrown = false ∧
      (((Async.tryBlock toLowerCase repo req w).1.isThrown = false ∧
          ∃ status body,
            (Async.handle toLowerCase repo req w).2.effects = w.effects ++ [Effect.json status body]) ∨
        ∃ e, (Async.tryBlock toLowerCase repo req w).1 = Completion.thrown e ∧
          (Async.handle toLowerCase repo req w).2.effects = w.effects ++ [Effect.next e]) := by
  have h := answers_tryBlock toLowerCase repo req w
  unfold Async.handle Handler.tryCatchNext
  rcases hb : Async.tryBlock toLowerCase repo req w with ⟨c, w1⟩
  rw [hb] at h
  cases c with
  | normal a => exact ⟨rfl, Or.inl ⟨rfl, h⟩⟩
  | returned => exact ⟨rfl, Or.inl ⟨rfl, h⟩⟩
  | thrown e =>
      refine ⟨rfl, Or.inr ⟨e, rfl, ?_⟩⟩
      simp only [] at h ⊢
      rw [h]

theorem handler_responds_or_forwards_witness :
    (Async.handle asciiLowerCase User.repository (Request.post (Field.str "Ann") (Field.str "ann@ex.com"))
        { store := { emptyDb with faults := [none, some erDupEntry] }, effects := [] }).1.isThrown =
        false ∧
      (((Async.tryBlock asciiLowerCase User.repository (Request.post (Field.str "Ann") (Field.str "ann@ex.com"))
          { store := { emptyDb with faults := [none, some erDupEntry] },
            effects := [] }).1.isThrown = false ∧
          ∃ status body,
            (Async.handle asciiLowerCase User.repository
              (Request.post (Field.str "Ann") (Field.str "ann@ex.com"))
              { store := { emptyDb with faults := [none, some erDupEntry] },
                effects := [] }).2.effects = [] ++ [Effect.json status body]) ∨
        ∃ e, (Async.tryBlock asciiLowerCase User.repository
            (Request.post (Field.str "Ann") (Field.str "ann@ex.com"))
            { store := { emptyDb with faults := [none, some erDupEntry] },
              effects := [] }).1 = Completion.thrown e ∧
          (Async.handle asciiLowerCase User.repository
            (Request.post (Field.str "Ann") (Field.str "ann@ex.com"))
            { store := { emptyDb with faults := [none, some erDupEntry] },
              effects := [] }).2.effects = [] ++ [Effect.next e]) :=
  handler_responds_or_forwards asciiLowerCase User.repository
    (Request.post (Field.str "Ann") (Field.str "ann@ex.com"))
    { store := { emptyDb with faults := [none, some erDupEntry] }, effects := [] }

/-- The asynchronous handlers over the repository of `userModel.js` do what the
handlers as functions from a database to an outcome do: the same database is
left, and the one action is the one the outcome stands for. -/
theorem handle_refines (toLowerCase : String → String) (req : Request) (db : Db) :
    (Async.handle toLowerCase User.repository req { store := db, effects := [] }).2.store = (handle toLowerCase req db).2 ∧
      (Async.handle toLowerCase User.repository req { store := db, effects := [] }).2.effects =
        [(handle toLowerCase req db).1.effect] := by
  cases req with
  | post name email =>
      by_cases h1 : (!name.truthy || !email.truthy) = true
      · simp [Async.createUserTry, UserController.createUser, h1, Async.handle,
          Async.tryBlock, Handler.tryCatchNext, bind, Handler.bind, Handler.ifThen,
          Handler.returnJson, Handler.json, Handler.returnNow, Handler.await, Handler.pure,
          handle, User.repository, Outcome.effect]
      by_cases h2 : (!emailRegexTest email.text) = true
      · simp [Async.createUserTry, UserController.createUser, h1, h2, Async.handle,
          Async.tryBlock, Handler.tryCatchNext, bind, Handler.bind, Handler.ifThen,
          Handler.returnJson, Handler.json, Handler.returnNow, Handler.await, Handler.pure,
          handle, User.repository, Outcome.effect]
      rcases hfe : User.findByEmail email.text db with ⟨r1, db1⟩
      cases r1 with
      | error e => simp [Async.createUserTry, UserController.createUser, h1, h2, hfe, Async.handle,
          Async.tryBlock, Handler.tryCatchNext, bind, Handler.bind, Handler.ifThen,
          Handler.returnJson, Handler.json, Handler.returnNow, Handler.await, Handler.pure,
          handle, User.repository, Outcome.effect]
      | ok o =>
          cases o with
          | some u => simp [Async.createUserTry, UserController.createUser, h1, h2, hfe, Async.handle,
          Async.tryBlock, Handler.tryCatchNext, bind, Handler.bind, Handler.ifThen,
          Handler.returnJson, Handler.json, Handler.returnNow, Handler.await, Handler.pure,
          handle, User.repository, Outcome.effect]
          | none =>
              rcases hcr : User.create (trim name.text) (trim (toLowerCase email.text)) db1
                with ⟨r2, db2⟩
              cases r2 <;>
                simp [Async.createUserTry, UserController.createUser, h1, h2, hfe, hcr, Async.handle,
          Async.tryBlock, Handler.tryCatchNext, bind, Handler.bind, Handler.ifThen,
          Handler.returnJson, Handler.json, Handler.returnNow, Handler.await, Handler.pure,
          handle, User.repository, Outcome.effect]
  | getAll =>
      rcases hfa : User.findAll db with ⟨r1, db1⟩
      cases r1 with
      | error e => simp [Async.getUsersTry, UserController.getUsers, hfa, Async.handle,
          Async.tryBlock, Handler.tryCatchNext, bind, Handler.bind, Handler.ifThen,
          Handler.returnJson, Handler.json, Handler.returnNow, Handler.await, Handler.pure,
          handle, User.repository, Outcome.effect]
      | ok users =>
          rcases hct : User.count db1 with ⟨r2, db2⟩
          cases r2 <;> simp [Async.getUsersTry, UserController.getUsers, hfa, hct, Async.handle,
          Async.tryBlock, Handler.tryCatchNext, bind, Handler.bind, Handler.ifThen,
          Handler.returnJson, Handler.json, Handler.returnNow, Handler.await, Handler.pure,
          handle, User.repository, Outcome.effect]
  | get id =>
      by_cases h1 : isNaN id = true
      · simp [Async.getUserByIdTry, UserController.getUserById, h1, Async.handle,
          Async.tryBlock, Handler.tryCatchNext, bind, Handler.bind, Handler.ifThen,
          Handler.returnJson, Handler.json, Handler.returnNow, Handler.await, Handler.pure,
          handle, User.repository, Outcome.effect]
      rcases hfi : User.findById (parseInt id) db with ⟨r1, db1⟩
      cases r1 with
      | error e => simp [Async.getUserByIdTry, UserController.getUserById, h1, hfi, Async.handle,
          Async.tryBlock, Handler.tryCatchNext, bind, Handler.bind, Handler.ifThen,
          Handler.returnJson, Handler.json, Handler.returnNow, Handler.await, Handler.pure,
          handle, User.repository, Outcome.effect]
      | ok o =>
          cases o <;> simp [Async.getUserByIdTry, UserController.getUserById, h1, hfi, Async.handle,
          Async.tryBlock, Handler.tryCatchNext, bind, Handler.bind, Handler.ifThen,
          Handler.returnJson, Handler.json, Handler.returnNow, Handler.await, Handler.pure,
          handle, User.repository, Outcome.effect]
  | put id name email =>
      by_cases h0 : isNaN id = true
      · simp [Async.updateUserTry, UserController.updateUser, h0, Async.handle,
          Async.tryBlock, Handler.tryCatchNext, bind, Handler.bind, Handler.ifThen,
          Handler.returnJson, Handler.json, Handler.returnNow, Handler.await, Handler.pure,
          handle, User.repository, Outcome.effect]
      by_cases h1 : (!name.truthy || !email.truthy) = true
      · simp [Async.updateUserTry, UserController.updateUser, h0, h1, Async.handle,
          Async.tryBlock, Handler.tryCatchNext, bind, Handler.bind, Handler.ifThen,
          Handler.returnJson, Handler.json, Handler.returnNow, Handler.await, Handler.pure,
          handle, User.repository, Outcome.effect]
      by_cases h2 : (!emailRegexTest email.text) = true
      · simp [Async.updateUserTry, UserController.updateUser, h0, h1, h2, Async.handle,
          Async.tryBlock, Handler.tryCatchNext, bind, Handler.bind, Handler.ifThen,
          Handler.returnJson, Handler.json, Handler.returnNow, Handler.await, Handler.pure,
          handle, User.repository, Outcome.effect]
      rcases hfi : User.findById (parseInt id) db with ⟨r1, db1⟩
      cases r1 with
      | error e => simp [Async.updateUserTry, UserController.updateUser, h0, h1, h2, hfi, Async.handle,
          Async.tryBlock, Handler.tryCatchNext, bind, Handler.bind, Handler.ifThen,
          Handler.returnJson, Handler.json, Handler.returnNow, Handler.await, Handler.pure,
          handle, User.repository, Outcome.effect]
      | ok o =>
          cases o with
          | none => simp [Async.updateUserTry, UserController.updateUser, h0, h1, h2, hfi, Async.handle,
          Async.tryBlock, Handler.tryCatchNext, bind, Handler.bind, Handler.ifThen,
          Handler.returnJson, Handler.json, Handler.returnNow, Handler.await, Handler.pure,
          handle, User.repository, Outcome.effect]
          | some u =>
              rcases hfe : User.findByEmail (trim (toLowerCase email.text)) db1 with ⟨r2, db2⟩
              cases r2 with
              | error e =>
                  simp [Async.updateUserTry, UserController.updateUser, h0, h1, h2, hfi, hfe,
                    Async.handle,
          Async.tryBlock, Handler.tryCatchNext, bind, Handler.bind, Handler.ifThen,
          Handler.returnJson, Handler.json, Handler.returnNow, Handler.await, Handler.pure,
          handle, User.repository, Outcome.effect]
              | ok o2 =>
                  by_cases h3 : o2.any (fun u => some u.id != parseInt id) = true
                  · simp [Async.updateUserTry, UserController.updateUser, h0, h1, h2, hfi, hfe,
                      h3, Async.handle,
          Async.tryBlock, Handler.tryCatchNext, bind, Handler.bind, Handler.ifThen,
          Handler.returnJson, Handler.json, Handler.returnNow, Handler.await, Handler.pure,
          handle, User.repository, Outcome.effect]
                  rcases hup : User.update (parseInt id) (trim name.text)
                      (trim (toLowerCase email.text)) db2 with ⟨r3, db3⟩
                  cases r3 <;>
                    simp [Async.updateUserTry, UserController.updateUser, h0, h1, h2, hfi, hfe,
                      h3, hup, Async.handle,
          Async.tryBlock, Handler.tryCatchNext, bind, Handler.bind, Handler.ifThen,
          Handler.returnJson, Handler.json, Handler.returnNow, Handler.await, Handler.pure,
          handle, User.repository, Outcome.effect]
  | delete id =>
      by_cases h1 : isNaN id = true
      · simp [Async.deleteUserTry, UserController.deleteUser, h1, Async.handle,
          Async.tryBlock, Handler.tryCatchNext, bind, Handler.bind, Handler.ifThen,
          Handler.returnJson, Handler.json, Handler.returnNow, Handler.await, Handler.pure,
          handle, User.repository, Outcome.effect]
      rcases hde : User.delete (parseInt id) db with ⟨r1, db1⟩
      cases r1 with
      | error e => simp [Async.deleteUserTry, UserController.deleteUser, h1, hde, Async.handle,
          Async.tryBlock, Handler.tryCatchNext, bind, Handler.bind, Handler.ifThen,
          Handler.returnJson, Handler.json, Handler.returnNow, Handler.await, Handler.pure,
          handle, User.repository, Outcome.effect]
      | ok o =>
          cases o <;> simp [Async.deleteUserTry, UserController.deleteUser, h1, hde, Async.handle,
          Async.tryBlock, Handler.tryCatchNext, bind, Handler.bind, Handler.ifThen,
          Handler.returnJson, Handler.json, Handler.returnNow, Handler.await, Handler.pure,
          handle, User.repository, Outcome.effect]

/-! ## The form in which the handlers write the table -/

theorem written_logged {toLowerCase : String → String} {db : Db}
    (h : db.Written toLowerCase) (sql : Sql) : (db.logged sql).Written toLowerCase := h

theorem written_tick {toLowerCase : String → String} {db : Db}
    (h : db.Written toLowerCase) (dt : Nat) : (db.tick dt).Written toLowerCase := h

theorem written_createUser {toLowerCase : String → String} {db : Db}
    (hnormal : ∀ s, toLowerCase (trim (toLowerCase s)) = trim (toLowerCase s))
    (h : db.Written toLowerCase) (name email : Field) :
    (UserController.createUser toLowerCase name email db).2.Written toLowerCase := by
  by_cases hv : (!name.truthy || !email.truthy) = true
  · simpa [UserController.createUser, hv] using h
  by_cases hre : emailRegexTest email.text = true
  swap
  · simpa [UserController.createUser, hv, hre] using h
  have hn : name.truthy = true := by
    cases hh : name.truthy <;> simp [hh] at hv ⊢
  have he : email.truthy = true := by
    cases hh : email.truthy <;> simp [hh] at hv ⊢
  rw [createUser_eq toLowerCase _ _ h.1 hn he hre]
  by_cases h1 : ((db.rows.filter (fun r => r.email == email.text)).head?).isSome = true
  · rw [if_pos h1]
    exact written_logged h _
  rw [if_neg h1, create_eq _ _ (by exact h.1)]
  by_cases h2 : ((db.logged (Sql.selectByEmail email.text)).rows.any
      (fun r => r.email == trim (toLowerCase email.text))) = true
  · rw [if_pos h2]
    exact written_logged (written_logged h _) _
  rw [if_neg h2]
  obtain ⟨hf, hlow, hlt, hpos⟩ := h
  refine ⟨hf, ?_, ?_, ?_⟩
  · intro r hr
    simp only [Db.logged_rows, Db.logged_nextId, Db.logged_newRow, List.mem_append,
      List.mem_singleton] at hr
    rcases hr with hr | rfl
    · exact hlow r hr
    · exact hnormal _
  · intro r hr
    simp only [Db.logged_rows, Db.logged_nextId, Db.logged_newRow, List.mem_append,
      List.mem_singleton] at hr ⊢
    rcases hr with hr | rfl
    · have := hlt r hr
      omega
    · simp [Db.newRow]
  · simp only [Db.logged_nextId]
    omega

theorem written_getUsers {toLowerCase : String → String} {db : Db}
    (h : db.Written toLowerCase) : (UserController.getUsers db).2.Written toLowerCase := by
  have hf1 : (db.logged Sql.selectAll).faults = [] := h.1
  simp only [UserController.getUsers, findAll_eq h.1, count_eq hf1]
  exact written_logged (written_logged h _) _

theorem written_getUserById {toLowerCase : String → String} {db : Db}
    (h : db.Written toLowerCase) (id : String) :
    (UserController.getUserById id db).2.Written toLowerCase := by
  unfold UserController.getUserById
  rw [findById_eq _ h.1]
  split
  · exact h
  · cases (db.rows.filter (matchesId (parseInt id))).head? <;> exact written_logged h _

theorem written_deleteUser {toLowerCase : String → String} {db : Db}
    (h : db.Written toLowerCase) (id : String) :
    (UserController.deleteUser id db).2.Written toLowerCase := by
  unfold UserController.deleteUser
  rw [delete_eq _ h.1]
  split
  · exact h
  · cases (db.rows.filter (matchesId (parseInt id))).head? with
    | none => exact written_logged h _
    | some u =>
        obtain ⟨hf, hlow, hlt, hpos⟩ := h
        refine ⟨hf, ?_, ?_, hpos⟩
        · intro r hr
          exact hlow r (List.mem_filter.mp hr).1
        · intro r hr
          exact hlt r (List.mem_filter.mp hr).1

theorem written_updateUser {toLowerCase : String → String} {db : Db}
    (hnormal : ∀ s, toLowerCase (trim (toLowerCase s)) = trim (toLowerCase s))
    (h : db.Written toLowerCase) (id : String) (name email : Field) :
    (UserController.updateUser toLowerCase id name email db).2.Written toLowerCase := by
  unfold UserController.updateUser
  split
  · exact h
  split
  · exact h
  split
  · exact h
  rw [findById_eq _ h.1]
  cases (db.rows.filter (matchesId (parseInt id))).head? with
  | none => exact written_logged h _
  | some u =>
      simp only []
      rw [findByEmail_eq _ (by exact h.1)]
      simp only []
      split
      · exact written_logged (written_logged h _) _
      · rw [update_eq _ _ _ (by exact h.1)]
        split_ifs
        · exact written_logged (written_logged (written_logged h _) _) _
        · exact written_logged (written_logged (written_logged h _) _) _
        · obtain ⟨hf, hlow, hlt, hpos⟩ := h
          refine ⟨hf, ?_, ?_, hpos⟩
          · intro r hr
            simp only [Db.logged_rows, Db.logged_updatedRow, List.mem_map] at hr
            obtain ⟨x, hx, rfl⟩ := hr
            split
            · exact hnormal _
            · exact hlow x hx
          · intro r hr
            simp only [Db.logged_rows, Db.logged_updatedRow, List.mem_map] at hr
            obtain ⟨x, hx, rfl⟩ := hr
            have hid : (if matchesId (parseInt id) x then
                db.updatedRow (trim name.text) (trim (toLowerCase email.text)) x
               else x).id = x.id := by
              split <;> rfl
            rw [hid]
            exact hlt x hx

theorem written_handle {toLowerCase : String → String} {db : Db}
    (hnormal : ∀ s, toLowerCase (trim (toLowerCase s)) = trim (toLowerCase s))
    (h : db.Written toLowerCase) (req : Request) :
    (handle toLowerCase req db).2.Written toLowerCase := by
  cases req with
  | post name email => exact written_createUser hnormal h name email
  | getAll => exact written_getUsers h
  | get id => exact written_getUserById h id
  | put id name email => exact written_updateUser hnormal h id name email
  | delete id => exact written_deleteUser h id

/-- With a lower-casing whose trimmed results are in lower case, every table
the handlers reach from a table in the written form is in that form: its
e-mails are in lower case and its ids are below the positive counter. -/
theorem written_run {toLowerCase : String → String} {db : Db}
    (hnormal : ∀ s, toLowerCase (trim (toLowerCase s)) = trim (toLowerCase s))
    (h : db.Written toLowerCase) (reqs : List (Nat × Request)) :
    (run toLowerCase reqs db).Written toLowerCase := by
  induction reqs generalizing db with
  | nil => exact h
  | cons x rest ih => exact ih (written_handle hnormal (written_tick h x.1) x.2)

/-- The empty table is in the written form, whatever the lower-casing is. -/
theorem written_emptyDb (toLowerCase : String → String) : emptyDb.Written toLowerCase := by
  refine ⟨rfl, ?_, ?_, by decide⟩
  · intro r hr
    cases hr
  · intro r hr
    cases hr

end UserApi
